import Mathlib

/-!
Verification of the `Updater` reconciliation core of the uv_highlight addon
(`src/main.py`).  The Python class keeps two dictionaries keyed by object
name — `mesh_data` (cached mesh snapshots) and `last_update` (pending-update
timestamps) — and mutates them from two entry points: the depsgraph
notification handler and the heartbeat tick.

Shallow embedding conventions:
* Python dicts become insertion-ordered association lists
  (`List (String × Rat)` for `last_update`); `mesh_data` only matters through
  its key set and the boolean result of `mesh.Data.update`, so it is embedded
  as its ordered key list plus an update oracle `updResult` supplied by the
  tick environment.
* `time.perf_counter()` values are rationals supplied by the environment.
* Calls into the external collaborators (`renderer.update`, `renderer.disable`,
  `render.tag_redraw_all_views`, `mesh.Data.update`) are logged as effects.
* A Python `KeyError` (dict subscript on a missing key, `del` of a missing
  key) aborts the surrounding call; handlers therefore carry an `ok` flag and
  the mutations performed before the error are kept, as in Python.
-/

namespace UVHighlight

/-- A Blender operator as seen through `bpy.context.window_manager.operators`:
`ident` stands for the object identity used by the `op != self.op` reference
comparison, `idname` is `bl_idname`. -/
structure Op where
  ident : Nat
  idname : String
deriving DecidableEq, Repr

/-- Observable calls into the external collaborators, in program order. -/
inductive Eff where
  /-- `mesh.Data.update(obj, selectionOnly)` was invoked for this object id. -/
  | refresh (id : String) (selectionOnly : Bool)
  /-- `renderer_view3d.update(mesh_data)` -/
  | updView3d (id : String)
  /-- `renderer_uv.update(mesh_data)` -/
  | updUV (id : String)
  /-- `render.tag_redraw_all_views()` -/
  | redraw
  /-- `renderer_view3d.disable()` -/
  | disableView3d
deriving DecidableEq, Repr

/-- The mutable fields of the `Updater` instance (src/main.py lines 25-35),
plus the externally visible renderer `enabled` flags and the depsgraph
handler registration count. -/
structure UpdaterState where
  timer_running : Bool
  uv_select_mode : String
  /-- key list of the `mesh_data` dict, in insertion order -/
  mesh_data : List String
  /-- the `last_update` dict, in insertion order -/
  last_update : List (String × Rat)
  op : Option Op
  uv_editor_visible : Bool
  /-- Modelled from the spec: `renderer_view3d.enabled`.  The renderer module
  (`render.py`) is not under src/; per spec section 4.4 each Presentation
  Surface exposes `update(snapshot)`, `disable()` and an `enabled` flag.
  `disable()` clears the flag; `update` is taken to leave it unchanged, since
  the spec attributes no flag change to it. -/
  view3d_enabled : Bool
  /-- Modelled from the spec: `renderer_uv.enabled`, as for the 3D surface. -/
  uv_enabled : Bool
  /-- `renderer_view3d.mode` -/
  view3d_mode : String
  /-- how many times the depsgraph handler is registered in
  `bpy.app.handlers.depsgraph_update_post` -/
  handler_count : Nat
deriving DecidableEq, Repr

/-- Host state sampled during one heartbeat tick. -/
structure TickEnv where
  /-- `bpy.context.active_object` exists and has `type == 'MESH'` -/
  activeIsMesh : Bool
  /-- names of `bpy.context.selected_objects`, in order -/
  selectedNames : List String
  /-- `bpy.context.scene.tool_settings.uv_select_mode` -/
  uvSelectMode : String
  /-- result of `uv_editor_visibility()` for this tick -/
  uvVisible : Bool
  /-- `time.perf_counter()` as read in `handle_id_updates` -/
  now : Rat
  /-- oracle for `mesh.Data.update(obj, selectionOnly)`: whether the refresh
  of this object id reported an observable change -/
  updResult : String → Bool → Bool
  /-- `bpy.context.window_manager.operators` -/
  operators : List Op

/-- One depsgraph update record (`depsgraph.updates` element), as consumed by
`can_skip_depsgraph`. -/
structure Upd where
  /-- `update.id` is truthy -/
  idPresent : Bool
  /-- `update.is_updated_geometry` -/
  isUpdatedGeometry : Bool
  /-- `hasattr(update.id, 'type')` -/
  hasType : Bool
  /-- `update.id.type` -/
  idType : String
  /-- `update.id.name` -/
  idName : String
deriving DecidableEq, Repr

/-- One delivery of the depsgraph handler: the selection at that moment and
the update records, each paired with the `time.perf_counter()` value read
while processing it. -/
structure DepsEnv where
  selectedNames : List String
  updates : List (Rat × Upd)

/-! ### Dictionary operations on association lists -/

/-- `m[k]` as an option (Python dict lookup). -/
def dlookup : List (String × Rat) → String → Option Rat
  | [], _ => none
  | (k', v') :: rest, k => if k' = k then some v' else dlookup rest k

/-- `m[k] = v`: update in place if the key exists, else append (Python dict
assignment, insertion order preserved). -/
def dinsert : List (String × Rat) → String → Rat → List (String × Rat)
  | [], k, v => [(k, v)]
  | (k', v') :: rest, k, v =>
      if k' = k then (k, v) :: rest else (k', v') :: dinsert rest k v

/-- `del m[k]` (the key is assumed present by the caller; on a missing key the
callers of this function model the `KeyError` separately). -/
def derase (m : List (String × Rat)) (k : String) : List (String × Rat) :=
  m.filter (fun p => p.1 ≠ k)

/-- `m.keys()` -/
def dkeys (m : List (String × Rat)) : List String :=
  m.map Prod.fst

/-! ### `Updater` methods -/

/-- `get_active_objects` (src/main.py lines 54-58): builds a name-keyed dict
from `bpy.context.selected_objects`; we keep its ordered key list.
Re-inserting an existing name keeps its original position. -/
def get_active_objects (selected : List String) : List String :=
  selected.foldl (fun acc n => if n ∈ acc then acc else acc ++ [n]) []

/-- The deletion loop of `free` (src/main.py lines 162-164): for each obsolete
id, `del self.last_update[id]; del self.mesh_data[id]`.  `del` on a key that
is missing from `last_update` raises `KeyError`, aborting the loop; the
returned flag is `false` in that case and deletions already made are kept. -/
def freeRun : List String → UpdaterState → UpdaterState × Bool
  | [], s => (s, true)
  | id :: rest, s =>
      if (dlookup s.last_update id).isSome then
        freeRun rest
          { s with last_update := derase s.last_update id,
                   mesh_data := s.mesh_data.filter (fun x => x ≠ id) }
      else (s, false)

/-- `free` (src/main.py lines 154-164): drop cache entries and pending
timestamps of every id in `mesh_data` that is no longer selected. -/
def free (s : UpdaterState) (selected : List String) : UpdaterState × Bool :=
  let active := get_active_objects selected
  freeRun (s.mesh_data.filter (fun id => id ∉ active)) s

/-- The uv-select-mode mirroring step of `heartbeat`
(src/main.py lines 69-73). -/
def modeSync (s : UpdaterState) (env : TickEnv) : UpdaterState × List Eff :=
  if env.uvSelectMode ≠ s.uv_select_mode then
    ({ s with uv_select_mode := env.uvSelectMode, view3d_mode := env.uvSelectMode },
     [Eff.redraw])
  else (s, [])

/-- The lazy-initialization step of `heartbeat` (src/main.py lines 77-80):
for every active id not yet in `mesh_data`, create a snapshot and set
`last_update[id] = -1`. -/
def lazyInit (s : UpdaterState) (active : List String) : UpdaterState :=
  active.foldl
    (fun st id =>
      if id ∈ st.mesh_data then st
      else { st with mesh_data := st.mesh_data ++ [id],
                     last_update := dinsert st.last_update id (-1) }) s

/-- Result of one handler call inside `heartbeat`: the state after the call,
the logged external effects, the Python return value (`fired`), and whether
the call completed without an uncaught `KeyError` (`ok`). -/
structure HandlerResult where
  state : UpdaterState
  effs : List Eff
  fired : Bool
  ok : Bool
deriving Repr

/-- The effects of one non-selection-only snapshot refresh of object `id`
(src/main.py lines 102-105 and 143-146): the `mesh.Data.update(obj, False)`
call itself, then — when it reported a change — pushes to both renderers and
a redraw request. -/
def refreshEffs (upd : String → Bool → Bool) (id : String) : List Eff :=
  Eff.refresh id false ::
    (if upd id false then [Eff.updView3d id, Eff.updUV id, Eff.redraw] else [])

/-- The effects of one selection-only refresh of object `id`
(src/main.py lines 123-125): no redraw request in this branch. -/
def selEffs (upd : String → Bool → Bool) (id : String) : List Eff :=
  Eff.refresh id true ::
    (if upd id true then [Eff.updView3d id, Eff.updUV id] else [])

/-- The loop of `handle_uv_edtitor_visibility_changed` on a false→true
transition (src/main.py lines 141-146): force-refresh every active object's
snapshot (`selectionOnly = False`) and push it to both renderers plus a
redraw when it changed.  `self.mesh_data[id]` raises `KeyError` when the id
is missing, aborting the loop. -/
def huvLoop (md : List String) (upd : String → Bool → Bool) :
    List String → List Eff × Bool
  | [] => ([], true)
  | id :: rest =>
      if id ∈ md then
        let r := huvLoop md upd rest
        (refreshEffs upd id ++ r.1, r.2)
      else ([], false)

/-- `handle_uv_edtitor_visibility_changed` (src/main.py lines 129-151),
keeping the source's misspelled name. -/
def handle_uv_edtitor_visibility_changed (s : UpdaterState) (active : List String)
    (env : TickEnv) : HandlerResult :=
  if s.uv_editor_visible = env.uvVisible then
    if s.uv_editor_visible = false then
      if s.view3d_enabled then
        ⟨{ s with view3d_enabled := false }, [Eff.disableView3d, Eff.redraw], false, true⟩
      else ⟨s, [], false, true⟩
    else ⟨s, [], false, true⟩
  else
    let s1 := { s with uv_editor_visible := env.uvVisible }
    if env.uvVisible then
      let r := huvLoop s1.mesh_data env.updResult active
      ⟨s1, r.1, true, r.2⟩
    else
      ⟨{ s1 with view3d_enabled := false }, [Eff.disableView3d, Eff.redraw], true, true⟩

/-- The loop of `handle_id_updates` (src/main.py lines 98-107).  For every
entry whose timestamp is strictly in the past and strictly positive: reset it
to the sentinel `-1`, refresh the snapshot (`selectionOnly = False`), and on
an observable change push to both renderers and request a redraw.
`self.mesh_data[id]` / `active_objects[id]` raise `KeyError` when the id is
missing; the sentinel assignment made just before is kept, the loop aborts. -/
def hiduLoop (md active : List String) (upd : String → Bool → Bool) (t : Rat) :
    List (String × Rat) → List (String × Rat) × List Eff × Bool × Bool
  | [] => ([], [], false, true)
  | (id, lu) :: rest =>
      if lu < t ∧ 0 < lu then
        if id ∈ md ∧ id ∈ active then
          let r := hiduLoop md active upd t rest
          ((id, -1) :: r.1, refreshEffs upd id ++ r.2.1, true, r.2.2.2)
        else ((id, -1) :: rest, [], true, false)
      else
        let r := hiduLoop md active upd t rest
        ((id, lu) :: r.1, r.2.1, r.2.2.1, r.2.2.2)

/-- `handle_id_updates` (src/main.py lines 92-109). -/
def handle_id_updates (s : UpdaterState) (active : List String) (env : TickEnv) :
    HandlerResult :=
  let r := hiduLoop s.mesh_data active env.updResult env.now s.last_update
  ⟨{ s with last_update := r.1 }, r.2.1, r.2.2.1, r.2.2.2⟩

/-- The `last_update` mapping produced by a crash-free `handle_id_updates`
pass at time `t`: every due entry is reset to the sentinel. -/
def dueMap (t : Rat) (l : List (String × Rat)) : List (String × Rat) :=
  l.map (fun p => if p.2 < t ∧ 0 < p.2 then (p.1, (-1 : Rat)) else p)

/-- The entries of `l` that are due at time `t` (set and in the past). -/
def dueFilter (t : Rat) (l : List (String × Rat)) : List (String × Rat) :=
  l.filter (fun p => decide (p.2 < t ∧ 0 < p.2))

/-- The effects emitted by a crash-free `handle_id_updates` pass. -/
def dueEffs (upd : String → Bool → Bool) (t : Rat) (l : List (String × Rat)) :
    List Eff :=
  (dueFilter t l).foldr (fun p acc => refreshEffs upd p.1 ++ acc) []

/-- Whether some entry of `l` is due at time `t` (the `result` flag of
`handle_id_updates`). -/
def anyDue (t : Rat) (l : List (String × Rat)) : Bool :=
  l.any (fun p => decide (p.2 < t ∧ 0 < p.2))

/-- The effects of the crash-free force-refresh loop run on a false→true
UV-editor visibility transition (src/main.py lines 141-146). -/
def forceEffs (upd : String → Bool → Bool) (l : List String) : List Eff :=
  l.foldr (fun id acc => refreshEffs upd id ++ acc) []

/-- The loop of `handle_selection_changed_ops` (src/main.py lines 122-125):
selection-only refresh of every tracked snapshot, pushing changed ones to
both renderers (no redraw request in this branch).  `active_objects[id]`
raises `KeyError` when the id is not selected. -/
def hscoLoop (active : List String) (upd : String → Bool → Bool) :
    List String → List Eff × Bool
  | [] => ([], true)
  | id :: rest =>
      if id ∈ active then
        let r := hscoLoop active upd rest
        (selEffs upd id ++ r.1, r.2)
      else ([], false)

/-- `handle_selection_changed_ops` (src/main.py lines 111-127). -/
def handle_selection_changed_ops (s : UpdaterState) (active : List String)
    (env : TickEnv) : HandlerResult :=
  match env.operators.getLast? with
  | none => ⟨s, [], false, true⟩
  | some op =>
      if s.op = some op then ⟨s, [], false, true⟩
      else
        let s1 := { s with op := some op }
        if op.idname.startsWith "UV_OT_select" then
          let r := hscoLoop active env.updResult s1.mesh_data
          ⟨s1, r.1, true, r.2⟩
        else ⟨s1, [], true, true⟩

/-- Steps 6-8 of `heartbeat` (src/main.py lines 82-90): the three handlers in
order, each short-circuiting the rest of the tick when it returns `True`; an
uncaught `KeyError` (`ok = false`) aborts the tick. -/
def heartbeatCore (s3 : UpdaterState) (active : List String) (env : TickEnv) :
    UpdaterState × List Eff × Bool :=
  let v := handle_uv_edtitor_visibility_changed s3 active env
  if v.ok = false then (v.state, v.effs, false)
  else if v.fired then (v.state, v.effs, true)
  else
    let h := handle_id_updates v.state active env
    if h.ok = false then (h.state, v.effs ++ h.effs, false)
    else if h.fired then (h.state, v.effs ++ h.effs, true)
    else
      let o := handle_selection_changed_ops h.state active env
      (o.state, v.effs ++ h.effs ++ o.effs, o.ok)

/-- The state reached after steps 3-5 of `heartbeat` (free, uv-select-mode
sync, lazy initialization), assuming `free` did not raise. -/
def tickPrep (s : UpdaterState) (env : TickEnv) : UpdaterState :=
  lazyInit (modeSync (free s env.selectedNames).1 env).1
    (get_active_objects env.selectedNames)

/-- Result of one heartbeat tick: final state, logged effects, and whether
the tick ran to completion without an uncaught `KeyError`. -/
structure TickResult where
  state : UpdaterState
  effs : List Eff
  ok : Bool
deriving Repr

/-- `heartbeat` (src/main.py lines 60-90).  `watch_mouse` (step 1) only
re-arms an external watcher and is not part of the tracked state. -/
def heartbeat (s : UpdaterState) (env : TickEnv) : TickResult :=
  if env.activeIsMesh then
    let f := free s env.selectedNames
    if f.2 then
      let p := modeSync f.1 env
      let active := get_active_objects env.selectedNames
      let r := heartbeatCore (lazyInit p.1 active) active env
      ⟨r.1, p.2 ++ r.2.1, r.2.2⟩
    else ⟨f.1, [], false⟩
  else ⟨s, [], true⟩

/-- `can_skip_depsgraph` (src/main.py lines 172-188). -/
def can_skip_depsgraph (selected : List String) (u : Upd) : Bool :=
  if !u.idPresent || !u.isUpdatedGeometry then true
  else if !u.hasType then true
  else if u.idType ≠ "MESH" then true
  else !(u.idName ∈ get_active_objects selected : Bool)

/-- The body of the update loop of `depsgraph_handler`
(src/main.py lines 205-216): skip filtered records; otherwise initialize a
missing `last_update` entry to the sentinel `-1`, then either extend a still
pending timestamp by `0.1` or schedule `t + 0.01`. -/
def process_update (selected : List String) (t : Rat)
    (lu : List (String × Rat)) (u : Upd) : List (String × Rat) :=
  if can_skip_depsgraph selected u then lu
  else
    let lu1 := if dlookup lu u.idName = none then dinsert lu u.idName (-1) else lu
    let prev := (dlookup lu1 u.idName).getD (-1)
    if t < prev ∧ 0 < prev then dinsert lu1 u.idName (t + 1/10)
    else dinsert lu1 u.idName (t + 1/100)

/-- `depsgraph_handler` (src/main.py lines 190-216): the first delivery only
starts the modal timer and returns; later deliveries fold `process_update`
over the update records. -/
def depsgraph_handler (s : UpdaterState) (env : DepsEnv) : UpdaterState :=
  if s.timer_running then
    let lu := env.updates.foldl
      (fun lu tu => process_update env.selectedNames tu.1 lu tu.2) s.last_update
    { s with last_update := lu }
  else { s with timer_running := true }

/-- `start` (src/main.py lines 37-38): append the depsgraph handler. -/
def start (s : UpdaterState) : UpdaterState :=
  { s with handler_count := s.handler_count + 1 }

/-- `bpy.app.handlers.depsgraph_update_post.remove(...)`: removing a handler
that is not registered raises; modelled as an `Except`. -/
def removeHandlerAttempt (n : Nat) : Except String Nat :=
  if 0 < n then Except.ok (n - 1) else Except.error "remove: x not in list"

/-- `stop` (src/main.py lines 40-49): disable both renderers, clear the timer
flag, then attempt handler removal inside `try/except` — a removal failure is
swallowed.  The returned flag records whether an exception escaped `stop`. -/
def stop (s : UpdaterState) : UpdaterState × Bool :=
  let s1 := { s with uv_enabled := false, view3d_enabled := false,
                     timer_running := false }
  match removeHandlerAttempt s1.handler_count with
  | Except.ok n => ({ s1 with handler_count := n }, false)
  | Except.error _ => (s1, false)

/-- The state built by `Updater.__init__` (src/main.py lines 25-35).  The
initial renderer `enabled` flags, the initial `renderer_view3d.mode`, and the
handler registration count are owned by the external collaborators and are
arbitrary. -/
def initState (v3 uv : Bool) (mode : String) (n : Nat) : UpdaterState :=
  { timer_running := false,
    uv_select_mode := "VERTEX",
    mesh_data := [],
    last_update := [],
    op := none,
    uv_editor_visible := false,
    view3d_enabled := v3,
    uv_enabled := uv,
    view3d_mode := mode,
    handler_count := n }

/-- States of the `Updater` reachable from `__init__` by any interleaving of
heartbeat ticks and depsgraph-notification deliveries. -/
inductive Reach : UpdaterState → Prop where
  | init (v3 uv : Bool) (mode : String) (n : Nat) : Reach (initState v3 uv mode n)
  | tick {s : UpdaterState} (env : TickEnv) : Reach s → Reach (heartbeat s env).state
  | deps {s : UpdaterState} (env : DepsEnv) : Reach s → Reach (depsgraph_handler s env)

/-- The reachable state refuting the key-set equality of C1 as stated: the
second depsgraph delivery (the first only starts the modal timer) carries a
qualifying geometry update for the selected object `Cube` before any
heartbeat has observed it. -/
def c1State : UpdaterState :=
  depsgraph_handler
    (depsgraph_handler (initState false false "VERTEX" 0) ⟨[], []⟩)
    ⟨["Cube"], [(0, ⟨true, true, true, "MESH", "Cube"⟩)]⟩

/-! ### Association-list lemmas -/

theorem dlookup_dinsert (m : List (String × Rat)) (k k' : String) (v : Rat) :
    dlookup (dinsert m k v) k' = if k = k' then some v else dlookup m k' := by
  induction m with
  | nil => simp [dinsert, dlookup]
  | cons p rest ih =>
      obtain ⟨a, b⟩ := p
      by_cases hak : a = k
      · subst hak
        simp [dinsert, dlookup]
        by_cases hk : a = k' <;> simp [hk]
      · simp [dinsert, hak, dlookup]
        by_cases hk : a = k'
        · subst hk
          have : ¬ k = a := fun h => hak h.symm
          simp [this]
        · simp [hk, ih]

theorem dlookup_dinsert_self (m : List (String × Rat)) (k : String) (v : Rat) :
    dlookup (dinsert m k v) k = some v := by
  simp [dlookup_dinsert]

theorem dinsert_dinsert (m : List (String × Rat)) (k : String) (v v' : Rat) :
    dinsert (dinsert m k v) k v' = dinsert m k v' := by
  induction m with
  | nil => simp [dinsert]
  | cons p rest ih =>
      obtain ⟨a, b⟩ := p
      by_cases hak : a = k
      · subst hak
        simp [dinsert]
      · simp [dinsert, hak, ih]

theorem dkeys_nil : dkeys [] = [] := rfl

theorem dkeys_cons (a : String) (b : Rat) (m : List (String × Rat)) :
    dkeys ((a, b) :: m) = a :: dkeys m := rfl

theorem dlookup_eq_none_iff (m : List (String × Rat)) (k : String) :
    dlookup m k = none ↔ k ∉ dkeys m := by
  induction m with
  | nil => simp [dlookup, dkeys_nil]
  | cons p rest ih =>
      obtain ⟨a, b⟩ := p
      rw [dkeys_cons]
      by_cases hak : a = k
      · subst hak
        simp [dlookup]
      · have hka : ¬ k = a := fun h => hak h.symm
        simp [dlookup, hak, hka, ih]

theorem mem_dkeys_dinsert (m : List (String × Rat)) (k : String) (v : Rat) :
    k ∈ dkeys (dinsert m k v) := by
  induction m with
  | nil => simp [dinsert, dkeys_cons, dkeys_nil]
  | cons p rest ih =>
      obtain ⟨a, b⟩ := p
      by_cases hak : a = k
      · subst hak
        simp [dinsert, dkeys_cons]
      · simp only [dinsert, if_neg hak, dkeys_cons, List.mem_cons]
        exact Or.inr ih

theorem mem_dkeys_dinsert_of_mem (m : List (String × Rat)) (k k' : String) (v : Rat) :
    k' ∈ dkeys m → k' ∈ dkeys (dinsert m k v) := by
  induction m with
  | nil => intro h; simp [dkeys_nil] at h
  | cons p rest ih =>
      obtain ⟨a, b⟩ := p
      intro h
      by_cases hak : a = k
      · subst hak
        simpa [dinsert, dkeys_cons] using h
      · rw [dkeys_cons, List.mem_cons] at h
        simp only [dinsert, if_neg hak, dkeys_cons, List.mem_cons]
        rcases h with h | h
        · exact Or.inl h
        · exact Or.inr (ih h)

theorem dkeys_mem_dinsert_cases (m : List (String × Rat)) (k a : String) (v : Rat) :
    a ∈ dkeys (dinsert m k v) → a ∈ dkeys m ∨ a = k := by
  induction m with
  | nil =>
      intro h
      simp [dinsert, dkeys_cons, dkeys_nil] at h
      exact Or.inr h
  | cons p rest ih =>
      obtain ⟨x, y⟩ := p
      intro h
      by_cases hxk : x = k
      · subst hxk
        rw [dinsert, if_pos rfl, dkeys_cons, List.mem_cons] at h
        rw [dkeys_cons, List.mem_cons]
        rcases h with h | h
        · exact Or.inr h
        · exact Or.inl (Or.inr h)
      · rw [dinsert, if_neg hxk, dkeys_cons, List.mem_cons] at h
        rw [dkeys_cons, List.mem_cons]
        rcases h with h | h
        · exact Or.inl (Or.inl h)
        · rcases ih h with h1 | h1
          · exact Or.inl (Or.inr h1)
          · exact Or.inr h1

theorem dkeys_dinsert_nodup (m : List (String × Rat)) (k : String) (v : Rat) :
    (dkeys m).Nodup → (dkeys (dinsert m k v)).Nodup := by
  induction m with
  | nil => intro h; simp [dinsert, dkeys_cons, dkeys_nil]
  | cons p rest ih =>
      obtain ⟨a, b⟩ := p
      intro h
      rw [dkeys_cons, List.nodup_cons] at h
      by_cases hak : a = k
      · subst hak
        rw [dinsert, if_pos rfl, dkeys_cons, List.nodup_cons]
        exact h
      · rw [dinsert, if_neg hak, dkeys_cons, List.nodup_cons]
        refine ⟨fun hmem => ?_, ih h.2⟩
        rcases dkeys_mem_dinsert_cases rest k a v hmem with h1 | h1
        · exact h.1 h1
        · exact hak h1

theorem mem_dkeys_derase (m : List (String × Rat)) (k a : String) :
    a ∈ dkeys (derase m k) ↔ a ∈ dkeys m ∧ a ≠ k := by
  induction m with
  | nil => simp [derase, dkeys_nil]
  | cons p rest ih =>
      obtain ⟨x, y⟩ := p
      by_cases hxk : x = k
      · subst hxk
        rw [dkeys_cons]
        have hstep : derase ((x, y) :: rest) x = derase rest x := by
          simp [derase, List.filter_cons]
        rw [hstep, ih, List.mem_cons]
        constructor
        · rintro ⟨h1, h2⟩
          exact ⟨Or.inr h1, h2⟩
        · rintro ⟨h1 | h1, h2⟩
          · exact absurd h1 h2
          · exact ⟨h1, h2⟩
      · have hstep : derase ((x, y) :: rest) k = (x, y) :: derase rest k := by
          simp [derase, List.filter_cons, hxk]
        rw [hstep, dkeys_cons, dkeys_cons, List.mem_cons, List.mem_cons, ih]
        constructor
        · rintro (h | ⟨h1, h2⟩)
          · exact ⟨Or.inl h, h ▸ hxk⟩
          · exact ⟨Or.inr h1, h2⟩
        · rintro ⟨h1 | h1, h2⟩
          · exact Or.inl h1
          · exact Or.inr ⟨h1, h2⟩

theorem dlookup_derase_ne (m : List (String × Rat)) (k a : String) (h : a ≠ k) :
    dlookup (derase m k) a = dlookup m a := by
  induction m with
  | nil => simp [derase]
  | cons p rest ih =>
      obtain ⟨x, y⟩ := p
      by_cases hxk : x = k
      · subst hxk
        have hstep : derase ((x, y) :: rest) x = derase rest x := by
          simp [derase, List.filter_cons]
        have hxa : ¬ x = a := fun hh => h hh.symm
        rw [hstep, ih, dlookup, if_neg hxa]
      · have hstep : derase ((x, y) :: rest) k = (x, y) :: derase rest k := by
          simp [derase, List.filter_cons, hxk]
        rw [hstep, dlookup, dlookup]
        by_cases hxa : x = a
        · rw [if_pos hxa, if_pos hxa]
        · rw [if_neg hxa, if_neg hxa, ih]

theorem dlookup_derase_self (m : List (String × Rat)) (k : String) :
    dlookup (derase m k) k = none := by
  rw [dlookup_eq_none_iff]
  intro h
  exact ((mem_dkeys_derase m k k).1 h).2 rfl

theorem dlookup_mem (m : List (String × Rat)) (k : String) (v : Rat) :
    dlookup m k = some v → (k, v) ∈ m := by
  induction m with
  | nil => intro h; simp [dlookup] at h
  | cons p rest ih =>
      obtain ⟨a, b⟩ := p
      intro h
      rw [dlookup] at h
      by_cases hak : a = k
      · rw [if_pos hak] at h
        subst hak
        rw [Option.some_inj] at h
        subst h
        exact List.mem_cons_self _ _
      · rw [if_neg hak] at h
        exact List.mem_cons_of_mem _ (ih h)

theorem mem_dkeys_of_mem (m : List (String × Rat)) (p : String × Rat) (h : p ∈ m) :
    p.1 ∈ dkeys m := by
  rw [dkeys, List.mem_map]
  exact ⟨p, h, rfl⟩

theorem mem_dlookup (m : List (String × Rat)) (k : String) (v : Rat) :
    (dkeys m).Nodup → (k, v) ∈ m → dlookup m k = some v := by
  induction m with
  | nil => intro _ h; simp at h
  | cons p rest ih =>
      obtain ⟨a, b⟩ := p
      intro hnd h
      rw [dkeys_cons, List.nodup_cons] at hnd
      rw [List.mem_cons] at h
      rcases h with h | h
      · injection h with h1 h2
        subst h1
        subst h2
        simp [dlookup]
      · have hak : ¬ a = k := by
          intro hh
          subst hh
          exact hnd.1 (by simpa using mem_dkeys_of_mem rest (a, v) h)
        rw [dlookup, if_neg hak]
        exact ih hnd.2 h

/-! ### `get_active_objects` lemmas -/

theorem mem_get_active_objects (l : List String) (id : String) :
    id ∈ get_active_objects l ↔ id ∈ l := by
  suffices h : ∀ acc : List String,
      id ∈ l.foldl (fun acc n => if n ∈ acc then acc else acc ++ [n]) acc ↔
        id ∈ acc ∨ id ∈ l by
    simpa [get_active_objects] using h []
  induction l with
  | nil => intro acc; simp
  | cons a rest ih =>
      intro acc
      simp only [List.foldl_cons]
      by_cases ha : a ∈ acc
      · rw [if_pos ha, ih acc]
        simp only [List.mem_cons]
        constructor
        · rintro (h | h)
          · exact Or.inl h
          · exact Or.inr (Or.inr h)
        · rintro (h | h | h)
          · exact Or.inl h
          · exact Or.inl (h ▸ ha)
          · exact Or.inr h
      · rw [if_neg ha, ih (acc ++ [a])]
        simp only [List.mem_append, List.mem_cons, List.not_mem_nil, or_false]
        constructor
        · rintro ((h | h) | h)
          · exact Or.inl h
          · exact Or.inr (Or.inl h)
          · exact Or.inr (Or.inr h)
        · rintro (h | h | h)
          · exact Or.inl (Or.inl h)
          · exact Or.inl (Or.inr h)
          · exact Or.inr h

theorem nodup_get_active_objects (l : List String) :
    (get_active_objects l).Nodup := by
  suffices h : ∀ acc : List String, acc.Nodup →
      (l.foldl (fun acc n => if n ∈ acc then acc else acc ++ [n]) acc).Nodup by
    exact h [] (by simp)
  induction l with
  | nil => intro acc hacc; simpa using hacc
  | cons a rest ih =>
      intro acc hacc
      simp only [List.foldl_cons]
      by_cases ha : a ∈ acc
      · rw [if_pos ha]; exact ih acc hacc
      · rw [if_neg ha]
        exact ih (acc ++ [a]) (by simp [List.nodup_append, hacc, ha])

/-! ### Claims about the Change Notification Debouncer -/

/-- C3: a delivered change record with an absent entity, a non-geometry
change, a missing or non-mesh kind, or an entity outside the active selection
leaves the `last_update` mapping completely unchanged. -/
theorem skipped_update_leaves_last_update_unchanged (selected : List String)
    (t : Rat) (lu : List (String × Rat)) (u : Upd)
    (h : u.idPresent = false ∨ u.isUpdatedGeometry = false ∨ u.hasType = false ∨
         u.idType ≠ "MESH" ∨ u.idName ∉ selected) :
    process_update selected t lu u = lu := by
  have hskip : can_skip_depsgraph selected u = true := by
    rcases h with h | h | h | h | h
    · simp [can_skip_depsgraph, h]
    · simp [can_skip_depsgraph, h]
    · simp [can_skip_depsgraph, h]
    · simp [can_skip_depsgraph, h]
    · have : u.idName ∉ get_active_objects selected := by
        rw [mem_get_active_objects]; exact h
      simp [can_skip_depsgraph, this]
  simp [process_update, hskip]

/-- C3 witness: a geometry update for an unselected object is a no-op on a
concrete mapping. -/
theorem skipped_update_leaves_last_update_unchanged_witness :
    process_update ["Plane"] 5 [("Plane", 2)] ⟨true, true, true, "MESH", "Cube"⟩ =
      [("Plane", 2)] :=
  skipped_update_leaves_last_update_unchanged ["Plane"] 5 [("Plane", 2)]
    ⟨true, true, true, "MESH", "Cube"⟩ (by decide)

/-- Characterization of `process_update` on non-skipped records: the sentinel
initialization of a missing entry is immediately overwritten inside the same
handler body, so the net effect only depends on the prior lookup. -/
theorem process_update_eq (selected : List String) (t : Rat)
    (lu : List (String × Rat)) (u : Upd)
    (hq : can_skip_depsgraph selected u = false) :
    process_update selected t lu u =
      match dlookup lu u.idName with
      | none => dinsert lu u.idName (t + 1/100)
      | some prev =>
          if t < prev ∧ 0 < prev then dinsert lu u.idName (t + 1/10)
          else dinsert lu u.idName (t + 1/100) := by
  cases hl : dlookup lu u.idName with
  | none =>
      have hstuck : ¬ ((t : Rat) < -1 ∧ (0 : Rat) < -1) := by
        rintro ⟨-, h⟩
        norm_num at h
      simp only [process_update, hq, Bool.false_eq_true, if_false, hl, if_true,
        dlookup_dinsert_self, Option.getD_some, if_neg hstuck]
      exact dinsert_dinsert lu u.idName (-1) (t + 1/100)
  | some prev =>
      have hne : ¬ dlookup lu u.idName = none := by simp [hl]
      simp only [process_update, hq, Bool.false_eq_true, if_false]
      rw [if_neg hne, hl]
      simp only [Option.getD_some]

/-- C4: a second qualifying record for an identity whose stored pending
timestamp is positive and still in the future reschedules to `t + 0.1`, which
is strictly later than the `t + 0.01` a single event alone would store. -/
theorem coalesce_extends_due_time (selected : List String) (t prev : Rat)
    (lu : List (String × Rat)) (u : Upd)
    (hq : can_skip_depsgraph selected u = false)
    (hprev : dlookup lu u.idName = some prev)
    (hpos : 0 < prev) (ht : t < prev) :
    dlookup (process_update selected t lu u) u.idName = some (t + 1/10) ∧
      t + 1/100 < t + 1/10 := by
  constructor
  · rw [process_update_eq selected t lu u hq, hprev]
    show dlookup (if t < prev ∧ 0 < prev then _ else _) u.idName = _
    rw [if_pos ⟨ht, hpos⟩]
    exact dlookup_dinsert_self lu u.idName (t + 1/10)
  · have h : (1 : Rat)/100 < 1/10 := by norm_num
    linarith

/-- C4 witness: coalescing at concrete values. -/
theorem coalesce_extends_due_time_witness :
    dlookup (process_update ["Cube"] 0 [("Cube", 2)]
        ⟨true, true, true, "MESH", "Cube"⟩) "Cube" = some (0 + 1/10) ∧
      (0 : Rat) + 1/100 < 0 + 1/10 :=
  coalesce_extends_due_time ["Cube"] 0 2 [("Cube", 2)]
    ⟨true, true, true, "MESH", "Cube"⟩ (by decide) (by simp [dlookup])
    (by norm_num) (by norm_num)

/-- C7: one qualifying record for an identity with no `last_update` entry
stores `t + 0.01`, a due time that is never in the past. -/
theorem fresh_update_schedules_forward (selected : List String) (t : Rat)
    (lu : List (String × Rat)) (u : Upd)
    (hq : can_skip_depsgraph selected u = false)
    (hfresh : dlookup lu u.idName = none) :
    dlookup (process_update selected t lu u) u.idName = some (t + 1/100) ∧
      t ≤ t + 1/100 := by
  constructor
  · rw [process_update_eq selected t lu u hq, hfresh]
    exact dlookup_dinsert_self lu u.idName (t + 1/100)
  · have h : (0 : Rat) ≤ 1/100 := by norm_num
    linarith

/-- C7 witness: a fresh identity is scheduled at `t + 0.01` at concrete
values. -/
theorem fresh_update_schedules_forward_witness :
    dlookup (process_update ["Cube"] 3 [] ⟨true, true, true, "MESH", "Cube"⟩)
        "Cube" = some (3 + 1/100) ∧ (3 : Rat) ≤ 3 + 1/100 :=
  fresh_update_schedules_forward ["Cube"] 3 [] ⟨true, true, true, "MESH", "Cube"⟩
    (by decide) (by simp [dlookup])

/-! ### Field-preservation lemmas for the heartbeat pipeline -/

theorem freeRun_fields (obs : List String) (s : UpdaterState) :
    (freeRun obs s).1.op = s.op ∧
    (freeRun obs s).1.uv_editor_visible = s.uv_editor_visible ∧
    (freeRun obs s).1.view3d_enabled = s.view3d_enabled ∧
    (freeRun obs s).1.uv_select_mode = s.uv_select_mode ∧
    (freeRun obs s).1.uv_enabled = s.uv_enabled ∧
    (freeRun obs s).1.timer_running = s.timer_running ∧
    (freeRun obs s).1.view3d_mode = s.view3d_mode ∧
    (freeRun obs s).1.handler_count = s.handler_count := by
  induction obs generalizing s with
  | nil => simp [freeRun]
  | cons id rest ih =>
      by_cases h : (dlookup s.last_update id).isSome = true
      · simp only [freeRun, if_pos h]
        exact ih _
      · simp [freeRun, h]

theorem modeSync_fields (s : UpdaterState) (env : TickEnv) :
    (modeSync s env).1.mesh_data = s.mesh_data ∧
    (modeSync s env).1.last_update = s.last_update ∧
    (modeSync s env).1.op = s.op ∧
    (modeSync s env).1.uv_editor_visible = s.uv_editor_visible ∧
    (modeSync s env).1.view3d_enabled = s.view3d_enabled ∧
    (modeSync s env).1.uv_enabled = s.uv_enabled ∧
    (modeSync s env).1.timer_running = s.timer_running := by
  unfold modeSync
  split_ifs <;> simp

theorem modeSync_effs (s : UpdaterState) (env : TickEnv) :
    ∀ e ∈ (modeSync s env).2, e = Eff.redraw := by
  unfold modeSync
  split_ifs <;> simp

theorem lazyInit_fields (active : List String) (s : UpdaterState) :
    (lazyInit s active).op = s.op ∧
    (lazyInit s active).uv_editor_visible = s.uv_editor_visible ∧
    (lazyInit s active).view3d_enabled = s.view3d_enabled ∧
    (lazyInit s active).uv_select_mode = s.uv_select_mode ∧
    (lazyInit s active).uv_enabled = s.uv_enabled ∧
    (lazyInit s active).timer_running = s.timer_running := by
  induction active generalizing s with
  | nil => simp [lazyInit]
  | cons a rest ih =>
      by_cases h : a ∈ s.mesh_data
      · simpa [lazyInit, h] using ih s
      · simpa [lazyInit, h] using
          ih { s with mesh_data := s.mesh_data ++ [a],
                      last_update := dinsert s.last_update a (-1) }

theorem hidu_state (s : UpdaterState) (active : List String) (env : TickEnv) :
    (handle_id_updates s active env).state.mesh_data = s.mesh_data ∧
    (handle_id_updates s active env).state.op = s.op ∧
    (handle_id_updates s active env).state.uv_editor_visible = s.uv_editor_visible ∧
    (handle_id_updates s active env).state.view3d_enabled = s.view3d_enabled ∧
    (handle_id_updates s active env).state.uv_enabled = s.uv_enabled := by
  simp [handle_id_updates]

theorem huv_state (s : UpdaterState) (active : List String) (env : TickEnv) :
    (handle_uv_edtitor_visibility_changed s active env).state.mesh_data = s.mesh_data ∧
    (handle_uv_edtitor_visibility_changed s active env).state.last_update = s.last_update ∧
    (handle_uv_edtitor_visibility_changed s active env).state.op = s.op ∧
    (handle_uv_edtitor_visibility_changed s active env).state.uv_enabled = s.uv_enabled := by
  unfold handle_uv_edtitor_visibility_changed
  split_ifs <;> simp

theorem hsco_state (s : UpdaterState) (active : List String) (env : TickEnv) :
    (handle_selection_changed_ops s active env).state.mesh_data = s.mesh_data ∧
    (handle_selection_changed_ops s active env).state.last_update = s.last_update ∧
    (handle_selection_changed_ops s active env).state.uv_editor_visible =
      s.uv_editor_visible ∧
    (handle_selection_changed_ops s active env).state.view3d_enabled =
      s.view3d_enabled ∧
    (handle_selection_changed_ops s active env).state.uv_enabled = s.uv_enabled := by
  unfold handle_selection_changed_ops
  cases env.operators.getLast? with
  | none => simp
  | some op =>
      dsimp only
      split_ifs <;> simp

theorem hiduLoop_dkeys (md active : List String) (upd : String → Bool → Bool)
    (t : Rat) : ∀ l : List (String × Rat),
    dkeys (hiduLoop md active upd t l).1 = dkeys l := by
  intro l
  induction l with
  | nil => simp [hiduLoop]
  | cons p rest ih =>
      obtain ⟨id, lu⟩ := p
      by_cases hdue : lu < t ∧ 0 < lu
      · by_cases hmem : id ∈ md ∧ id ∈ active
        · simp only [hiduLoop, if_pos hdue, if_pos hmem, dkeys_cons, ih]
        · simp only [hiduLoop, if_pos hdue, if_neg hmem, dkeys_cons]
      · simp only [hiduLoop, if_neg hdue, dkeys_cons, ih]

theorem core_mesh_data (s3 : UpdaterState) (active : List String) (env : TickEnv) :
    (heartbeatCore s3 active env).1.mesh_data = s3.mesh_data := by
  unfold heartbeatCore
  dsimp only
  have hv := huv_state s3 active env
  have hh := hidu_state
    (handle_uv_edtitor_visibility_changed s3 active env).state active env
  have ho := hsco_state
    (handle_id_updates
      (handle_uv_edtitor_visibility_changed s3 active env).state active env).state
    active env
  split_ifs <;> simp only []
  · exact hv.1
  · exact hv.1
  · exact hh.1.trans hv.1
  · exact hh.1.trans hv.1
  · exact ho.1.trans (hh.1.trans hv.1)

theorem core_dkeys (s3 : UpdaterState) (active : List String) (env : TickEnv) :
    dkeys (heartbeatCore s3 active env).1.last_update = dkeys s3.last_update := by
  unfold heartbeatCore
  dsimp only
  have hv := huv_state s3 active env
  have hh : dkeys (handle_id_updates
      (handle_uv_edtitor_visibility_changed s3 active env).state active env).state.last_update
      = dkeys s3.last_update := by
    rw [show (handle_id_updates
        (handle_uv_edtitor_visibility_changed s3 active env).state active env).state.last_update
        = (hiduLoop (handle_uv_edtitor_visibility_changed s3 active env).state.mesh_data
            active env.updResult env.now
            (handle_uv_edtitor_visibility_changed s3 active env).state.last_update).1
      from rfl]
    rw [hiduLoop_dkeys, hv.2.1]
  have ho := hsco_state
    (handle_id_updates
      (handle_uv_edtitor_visibility_changed s3 active env).state active env).state
    active env
  split_ifs <;> simp only []
  · exact congrArg dkeys hv.2.1
  · exact congrArg dkeys hv.2.1
  · exact hh
  · exact hh
  · exact (congrArg dkeys ho.2.1).trans hh

theorem heartbeat_inactive (s : UpdaterState) (env : TickEnv)
    (h : env.activeIsMesh = false) : heartbeat s env = ⟨s, [], true⟩ := by
  simp [heartbeat, h]

theorem heartbeat_freeFail (s : UpdaterState) (env : TickEnv)
    (hact : env.activeIsMesh = true) (h : (free s env.selectedNames).2 = false) :
    heartbeat s env = ⟨(free s env.selectedNames).1, [], false⟩ := by
  simp [heartbeat, hact, h]

theorem heartbeat_run (s : UpdaterState) (env : TickEnv)
    (hact : env.activeIsMesh = true)
    (hok : (free s env.selectedNames).2 = true) :
    heartbeat s env =
      ⟨(heartbeatCore (tickPrep s env) (get_active_objects env.selectedNames) env).1,
       (modeSync (free s env.selectedNames).1 env).2 ++
         (heartbeatCore (tickPrep s env) (get_active_objects env.selectedNames) env).2.1,
       (heartbeatCore (tickPrep s env) (get_active_objects env.selectedNames) env).2.2⟩ := by
  simp [heartbeat, hact, hok, tickPrep]

/-! ### The key-set invariant between `mesh_data` and `last_update` -/

theorem freeRun_sub (obs : List String) (s : UpdaterState)
    (h : ∀ id ∈ s.mesh_data, id ∈ dkeys s.last_update) :
    ∀ id ∈ (freeRun obs s).1.mesh_data, id ∈ dkeys (freeRun obs s).1.last_update := by
  induction obs generalizing s with
  | nil => simpa [freeRun] using h
  | cons x rest ih =>
      by_cases hx : (dlookup s.last_update x).isSome = true
      · simp only [freeRun, if_pos hx]
        refine ih _ ?_
        intro id hid
        simp only [List.mem_filter] at hid
        have h1 : id ∈ dkeys s.last_update := h id hid.1
        have h2 : id ≠ x := by simpa using hid.2
        exact (mem_dkeys_derase s.last_update x id).2 ⟨h1, h2⟩
      · simpa [freeRun, hx] using h

theorem free_sub (s : UpdaterState) (selected : List String)
    (h : ∀ id ∈ s.mesh_data, id ∈ dkeys s.last_update) :
    ∀ id ∈ (free s selected).1.mesh_data,
      id ∈ dkeys (free s selected).1.last_update :=
  freeRun_sub _ s h

theorem lazyInit_sub (active : List String) (s : UpdaterState)
    (h : ∀ id ∈ s.mesh_data, id ∈ dkeys s.last_update) :
    ∀ id ∈ (lazyInit s active).mesh_data,
      id ∈ dkeys (lazyInit s active).last_update := by
  induction active generalizing s with
  | nil => simpa [lazyInit] using h
  | cons a rest ih =>
      by_cases ha : a ∈ s.mesh_data
      · simp only [lazyInit, List.foldl_cons, if_pos ha]
        exact ih s h
      · simp only [lazyInit, List.foldl_cons, if_neg ha]
        refine ih _ ?_
        intro id hid
        simp only [List.mem_append, List.mem_singleton] at hid
        rcases hid with hid | hid
        · exact mem_dkeys_dinsert_of_mem _ _ _ _ (h id hid)
        · subst hid
          exact mem_dkeys_dinsert _ _ _

theorem tickPrep_sub (s : UpdaterState) (env : TickEnv)
    (h : ∀ id ∈ s.mesh_data, id ∈ dkeys s.last_update) :
    ∀ id ∈ (tickPrep s env).mesh_data, id ∈ dkeys (tickPrep s env).last_update := by
  unfold tickPrep
  refine lazyInit_sub _ _ ?_
  have hm := modeSync_fields (free s env.selectedNames).1 env
  intro id hid
  rw [hm.2.1]
  rw [hm.1] at hid
  exact free_sub s env.selectedNames h id hid

theorem heartbeat_sub (s : UpdaterState) (env : TickEnv)
    (h : ∀ id ∈ s.mesh_data, id ∈ dkeys s.last_update) :
    ∀ id ∈ (heartbeat s env).state.mesh_data,
      id ∈ dkeys (heartbeat s env).state.last_update := by
  by_cases hact : env.activeIsMesh = true
  · by_cases hok : (free s env.selectedNames).2 = true
    · rw [heartbeat_run s env hact hok]
      intro id hid
      simp only at hid ⊢
      rw [core_mesh_data] at hid
      rw [core_dkeys]
      exact tickPrep_sub s env h id hid
    · rw [heartbeat_freeFail s env hact (by simpa using hok)]
      exact free_sub s env.selectedNames h
  · rw [heartbeat_inactive s env (by simpa using hact)]
    exact h

theorem process_update_keys_mono (selected : List String) (t : Rat)
    (lu : List (String × Rat)) (u : Upd) (a : String) (h : a ∈ dkeys lu) :
    a ∈ dkeys (process_update selected t lu u) := by
  by_cases hq : can_skip_depsgraph selected u = true
  · simpa [process_update, hq] using h
  · rw [process_update_eq selected t lu u (by simpa using hq)]
    cases dlookup lu u.idName with
    | none => exact mem_dkeys_dinsert_of_mem _ _ _ _ h
    | some prev =>
        by_cases hc : t < prev ∧ 0 < prev
        · simp only [if_pos hc]
          exact mem_dkeys_dinsert_of_mem _ _ _ _ h
        · simp only [if_neg hc]
          exact mem_dkeys_dinsert_of_mem _ _ _ _ h

theorem depsgraph_sub (s : UpdaterState) (env : DepsEnv)
    (h : ∀ id ∈ s.mesh_data, id ∈ dkeys s.last_update) :
    ∀ id ∈ (depsgraph_handler s env).mesh_data,
      id ∈ dkeys (depsgraph_handler s env).last_update := by
  by_cases ht : s.timer_running = true
  · intro id hid
    simp only [depsgraph_handler, ht, if_pos] at hid ⊢
    suffices hmono : ∀ (ups : List (Rat × Upd)) (lu : List (String × Rat)),
        id ∈ dkeys lu →
        id ∈ dkeys (ups.foldl
          (fun lu tu => process_update env.selectedNames tu.1 lu tu.2) lu) by
      exact hmono env.updates s.last_update (h id hid)
    intro ups
    induction ups with
    | nil => intro lu hlu; simpa using hlu
    | cons tu rest ih =>
        intro lu hlu
        exact ih _ (process_update_keys_mono _ _ _ _ _ hlu)
  · simpa [depsgraph_handler, ht] using h

/-- C1 (amended): in every reachable state, the key set of `mesh_data` is
contained in the key set of `last_update`; reconciliation (`free`) removes an
identity from both mappings together.  Full key-set equality fails: the
depsgraph handler can create a `last_update` entry for an identity the
heartbeat has not yet observed (see the counterexample). -/
theorem mesh_data_keys_sub_last_update (s : UpdaterState) (h : Reach s) :
    ∀ id ∈ s.mesh_data, id ∈ dkeys s.last_update := by
  induction h with
  | init v3 uv mode n => simp [initState]
  | tick env _ ih => exact heartbeat_sub _ env ih
  | deps env _ ih => exact depsgraph_sub _ env ih

/-- C1 witness: after one heartbeat tick from the initial state with `Cube`
selected, `Cube` is tracked in `mesh_data` and the amended invariant places
it in `last_update` as well. -/
theorem mesh_data_keys_sub_last_update_witness :
    "Cube" ∈ dkeys (heartbeat (initState false false "VERTEX" 0)
      ⟨true, ["Cube"], "VERTEX", false, 0, fun _ _ => false, []⟩).state.last_update :=
  mesh_data_keys_sub_last_update _
    (Reach.tick ⟨true, ["Cube"], "VERTEX", false, 0, fun _ _ => false, []⟩
      (Reach.init false false "VERTEX" 0))
    "Cube" (by decide)

/-- C1 counterexample: a reachable state in which `Cube` is a key of
`last_update` but not of `mesh_data`, so the two key sets differ. -/
theorem keyset_equality_counterexample :
    Reach c1State ∧ "Cube" ∈ dkeys c1State.last_update ∧
      "Cube" ∉ c1State.mesh_data :=
  ⟨Reach.deps _ (Reach.deps _ (Reach.init false false "VERTEX" 0)),
   by decide, by decide⟩

/-- C10: `stop` never lets an exception escape — the handler-removal failure
is swallowed — and in every case both presentation surfaces are disabled and
the timer-running flag is cleared. -/
theorem stop_never_raises (s : UpdaterState) :
    (stop s).2 = false ∧ (stop s).1.uv_enabled = false ∧
      (stop s).1.view3d_enabled = false ∧ (stop s).1.timer_running = false := by
  simp only [stop, removeHandlerAttempt]
  split <;> simp

/-! ### Effect-membership and closed-form lemmas for the tick handlers -/

theorem mem_foldr_append {α : Type} (l : List α) (f : α → List Eff) (e : Eff) :
    e ∈ l.foldr (fun a acc => f a ++ acc) [] ↔ ∃ a ∈ l, e ∈ f a := by
  induction l with
  | nil => simp
  | cons a rest ih =>
      simp only [List.foldr_cons, List.mem_append, ih, List.mem_cons]
      constructor
      · rintro (h | ⟨x, hx, he⟩)
        · exact ⟨a, Or.inl rfl, h⟩
        · exact ⟨x, Or.inr hx, he⟩
      · rintro ⟨x, hx | hx, he⟩
        · exact Or.inl (hx ▸ he)
        · exact Or.inr ⟨x, hx, he⟩

theorem updView3d_mem_refreshEffs (upd : String → Bool → Bool) (a b : String) :
    Eff.updView3d a ∈ refreshEffs upd b → b = a ∧ upd b false = true := by
  unfold refreshEffs
  by_cases h : upd b false = true
  · rw [if_pos h]
    intro hm
    simp at hm
    exact ⟨hm.symm, h⟩
  · rw [if_neg h]
    intro hm
    simp at hm

theorem mem_refreshEffs_of_changed (upd : String → Bool → Bool) (b : String)
    (h : upd b false = true) :
    Eff.updView3d b ∈ refreshEffs upd b ∧ Eff.updUV b ∈ refreshEffs upd b ∧
      Eff.redraw ∈ refreshEffs upd b := by
  simp [refreshEffs, h]

theorem refresh_mem_refreshEffs (upd : String → Bool → Bool) (b : String) :
    Eff.refresh b false ∈ refreshEffs upd b := by
  simp [refreshEffs]

theorem refresh_false_mem_selEffs (upd : String → Bool → Bool) (a b : String)
    (sel : Bool) : Eff.refresh a sel ∈ selEffs upd b → sel = true := by
  unfold selEffs
  by_cases h : upd b true = true
  · rw [if_pos h]
    intro hm
    simp at hm
    exact hm.2
  · rw [if_neg h]
    intro hm
    simp at hm
    exact hm.2

theorem dlookup_map_keyed (g : String × Rat → String × Rat)
    (hkey : ∀ p, (g p).1 = p.1) (l : List (String × Rat)) (id : String) (v : Rat) :
    (dkeys l).Nodup → (id, v) ∈ l → dlookup (l.map g) id = some (g (id, v)).2 := by
  induction l with
  | nil => intro _ hm; simp at hm
  | cons p rest ih =>
      intro hnd hm
      obtain ⟨a, b⟩ := p
      rw [dkeys_cons, List.nodup_cons] at hnd
      rw [List.map_cons]
      rcases List.mem_cons.1 hm with h | h
      · have hfst : (g (a, b)).1 = id := by
          rw [hkey (a, b)]
          exact (congrArg Prod.fst h).symm
        have hsnd : (g (a, b)).2 = (g (id, v)).2 := by rw [← h]
        rw [show g (a, b) = ((g (a, b)).1, (g (a, b)).2) from rfl, dlookup,
          if_pos hfst, hsnd]
      · have hne : ¬ (g (a, b)).1 = id := by
          rw [hkey (a, b)]
          intro hh
          subst hh
          exact hnd.1 (mem_dkeys_of_mem rest (a, v) h)
        rw [show g (a, b) = ((g (a, b)).1, (g (a, b)).2) from rfl, dlookup,
          if_neg hne]
        exact ih hnd.2 h

theorem hiduLoop_eq (md active : List String) (upd : String → Bool → Bool)
    (t : Rat) : ∀ l : List (String × Rat),
    (∀ p ∈ l, p.2 < t ∧ 0 < p.2 → p.1 ∈ md ∧ p.1 ∈ active) →
    hiduLoop md active upd t l = (dueMap t l, dueEffs upd t l, anyDue t l, true) := by
  intro l
  induction l with
  | nil => intro _; simp [hiduLoop, dueMap, dueEffs, dueFilter, anyDue]
  | cons p rest ih =>
      intro hwf
      obtain ⟨id, lu⟩ := p
      have hrest : ∀ p ∈ rest, p.2 < t ∧ 0 < p.2 → p.1 ∈ md ∧ p.1 ∈ active :=
        fun p hp => hwf p (List.mem_cons_of_mem _ hp)
      by_cases hdue : lu < t ∧ 0 < lu
      · have hmem : id ∈ md ∧ id ∈ active :=
          hwf (id, lu) (List.mem_cons_self _ _) hdue
        simp only [hiduLoop, if_pos hdue, if_pos hmem, ih hrest]
        simp [dueMap, dueEffs, dueFilter, anyDue, hdue]
      · simp only [hiduLoop, if_neg hdue, ih hrest]
        simp [dueMap, dueEffs, dueFilter, anyDue, hdue]

theorem vis_noTrans (s3 : UpdaterState) (active : List String) (env : TickEnv)
    (h : s3.uv_editor_visible = env.uvVisible) :
    (handle_uv_edtitor_visibility_changed s3 active env).fired = false ∧
    (handle_uv_edtitor_visibility_changed s3 active env).ok = true ∧
    (handle_uv_edtitor_visibility_changed s3 active env).state.last_update =
      s3.last_update ∧
    (handle_uv_edtitor_visibility_changed s3 active env).state.mesh_data =
      s3.mesh_data ∧
    (handle_uv_edtitor_visibility_changed s3 active env).state.op = s3.op ∧
    (handle_uv_edtitor_visibility_changed s3 active env).state.view3d_enabled =
      (s3.view3d_enabled && env.uvVisible) ∧
    (∀ e ∈ (handle_uv_edtitor_visibility_changed s3 active env).effs,
      e = Eff.disableView3d ∨ e = Eff.redraw) ∧
    (s3.view3d_enabled = true → s3.uv_editor_visible = false →
      (handle_uv_edtitor_visibility_changed s3 active env).effs =
        [Eff.disableView3d, Eff.redraw]) := by
  unfold handle_uv_edtitor_visibility_changed
  rw [if_pos h]
  split_ifs with h1 h2 <;> simp_all

theorem core_when_hidu_fired (s3 : UpdaterState) (active : List String)
    (env : TickEnv)
    (hvok : (handle_uv_edtitor_visibility_changed s3 active env).ok = true)
    (hvf : (handle_uv_edtitor_visibility_changed s3 active env).fired = false)
    (hhok : (handle_id_updates
      (handle_uv_edtitor_visibility_changed s3 active env).state active env).ok = true)
    (hhf : (handle_id_updates
      (handle_uv_edtitor_visibility_changed s3 active env).state active env).fired
        = true) :
    heartbeatCore s3 active env =
      ((handle_id_updates
          (handle_uv_edtitor_visibility_changed s3 active env).state active env).state,
       (handle_uv_edtitor_visibility_changed s3 active env).effs ++
         (handle_id_updates
           (handle_uv_edtitor_visibility_changed s3 active env).state active env).effs,
       true) := by
  unfold heartbeatCore
  dsimp only
  rw [hvok, hvf, hhok, hhf]
  simp

theorem tickPrep_op (s : UpdaterState) (env : TickEnv) :
    (tickPrep s env).op = s.op := by
  unfold tickPrep
  rw [(lazyInit_fields _ _).1, (modeSync_fields _ _).2.2.1]
  exact (freeRun_fields _ s).1

theorem tickPrep_vis (s : UpdaterState) (env : TickEnv) :
    (tickPrep s env).uv_editor_visible = s.uv_editor_visible := by
  unfold tickPrep
  rw [(lazyInit_fields _ _).2.1, (modeSync_fields _ _).2.2.2.1]
  exact (freeRun_fields _ s).2.1

theorem tickPrep_view3d (s : UpdaterState) (env : TickEnv) :
    (tickPrep s env).view3d_enabled = s.view3d_enabled := by
  unfold tickPrep
  rw [(lazyInit_fields _ _).2.2.1, (modeSync_fields _ _).2.2.2.2.1]
  exact (freeRun_fields _ s).2.2.1

theorem dlookup_dueMap (t : Rat) (l : List (String × Rat)) (id : String)
    (v : Rat) (hnd : (dkeys l).Nodup) (hm : (id, v) ∈ l) :
    dlookup (dueMap t l) id = some (if v < t ∧ 0 < v then (-1 : Rat) else v) := by
  have hkey : ∀ p : String × Rat,
      ((if p.2 < t ∧ 0 < p.2 then (p.1, (-1 : Rat)) else p)).1 = p.1 :=
    fun p => by split_ifs <;> rfl
  have h := dlookup_map_keyed _ hkey l id v hnd hm
  rw [show dueMap t l =
      l.map (fun p => if p.2 < t ∧ 0 < p.2 then (p.1, (-1 : Rat)) else p)
    from rfl, h]
  by_cases hd : v < t ∧ 0 < v <;> simp [hd]

theorem mem_dueEffs (upd : String → Bool → Bool) (t : Rat)
    (l : List (String × Rat)) (e : Eff) :
    e ∈ dueEffs upd t l ↔
      ∃ p ∈ l, (p.2 < t ∧ 0 < p.2) ∧ e ∈ refreshEffs upd p.1 := by
  unfold dueEffs dueFilter
  rw [mem_foldr_append]
  constructor
  · rintro ⟨p, hp, he⟩
    rw [List.mem_filter] at hp
    exact ⟨p, hp.1, by simpa using hp.2, he⟩
  · rintro ⟨p, hp, hd, he⟩
    exact ⟨p, List.mem_filter.2 ⟨hp, by simpa using hd⟩, he⟩

theorem anyDue_true (t : Rat) (l : List (String × Rat)) (p : String × Rat)
    (hp : p ∈ l) (hd : p.2 < t ∧ 0 < p.2) : anyDue t l = true :=
  List.any_eq_true.2 ⟨p, hp, by simpa using hd⟩

theorem handle_id_updates_eq (s : UpdaterState) (active : List String)
    (env : TickEnv)
    (hwf : ∀ p ∈ s.last_update, p.2 < env.now ∧ 0 < p.2 →
      p.1 ∈ s.mesh_data ∧ p.1 ∈ active) :
    handle_id_updates s active env =
      ⟨{ s with last_update := dueMap env.now s.last_update },
       dueEffs env.updResult env.now s.last_update,
       anyDue env.now s.last_update, true⟩ := by
  unfold handle_id_updates
  rw [hiduLoop_eq _ _ _ _ _ hwf]

/-- Characterization of steps 6-8 on a tick with no visibility transition and
at least one due pending timestamp: the due-timestamp handler fires and
short-circuits the selection-operation step. -/
theorem core_noTrans_due (s3 : UpdaterState) (active : List String)
    (env : TickEnv)
    (hvis3 : s3.uv_editor_visible = env.uvVisible)
    (hwf : ∀ p ∈ s3.last_update, p.2 < env.now ∧ 0 < p.2 →
      p.1 ∈ s3.mesh_data ∧ p.1 ∈ active)
    (hex : ∃ p ∈ s3.last_update, p.2 < env.now ∧ 0 < p.2) :
    (heartbeatCore s3 active env).1.last_update = dueMap env.now s3.last_update ∧
    (heartbeatCore s3 active env).1.op = s3.op ∧
    (∀ e : Eff, e ∈ (heartbeatCore s3 active env).2.1 ↔
      (e ∈ (handle_uv_edtitor_visibility_changed s3 active env).effs ∨
        e ∈ dueEffs env.updResult env.now s3.last_update)) ∧
    (∀ e ∈ (handle_uv_edtitor_visibility_changed s3 active env).effs,
      e = Eff.disableView3d ∨ e = Eff.redraw) := by
  obtain ⟨hvf, hvok, hvlu, hvmd, hvop, hven, hveffs, -⟩ :=
    vis_noTrans s3 active env hvis3
  have hwf' : ∀ p ∈ (handle_uv_edtitor_visibility_changed s3 active
        env).state.last_update,
      p.2 < env.now ∧ 0 < p.2 →
      p.1 ∈ (handle_uv_edtitor_visibility_changed s3 active env).state.mesh_data ∧
      p.1 ∈ active := by
    rw [hvlu, hvmd]
    exact hwf
  have hEq := handle_id_updates_eq _ active env hwf'
  rw [hvlu] at hEq
  obtain ⟨p, hp, hdp⟩ := hex
  have hfired : (handle_id_updates
      (handle_uv_edtitor_visibility_changed s3 active env).state active
      env).fired = true := by
    rw [hEq]
    exact anyDue_true env.now s3.last_update p hp hdp
  have hhok : (handle_id_updates
      (handle_uv_edtitor_visibility_changed s3 active env).state active
      env).ok = true := by rw [hEq]
  rw [core_when_hidu_fired s3 active env hvok hvf hhok hfired, hEq]
  refine ⟨rfl, hvop, ?_, hveffs⟩
  intro e
  exact List.mem_append

/-- C2: on a heartbeat tick with an active mesh object and no UV-editor
visibility transition, every Object Identity whose pending timestamp is set
(positive) and already in the past has its timestamp cleared to the sentinel,
its snapshot refreshed with `selectionOnly = false`, and the snapshot pushed
to both surfaces with a global redraw requested iff the refresh reported a
change; having processed a due entry, the selection-operation step (step 8)
does not run, leaving `op` untouched. -/
theorem due_timestamps_processed (s : UpdaterState) (env : TickEnv)
    (hact : env.activeIsMesh = true)
    (hok : (free s env.selectedNames).2 = true)
    (hvis : env.uvVisible = s.uv_editor_visible)
    (hnd : (dkeys (tickPrep s env).last_update).Nodup)
    (hwf : ∀ p ∈ (tickPrep s env).last_update, p.2 < env.now ∧ 0 < p.2 →
      p.1 ∈ (tickPrep s env).mesh_data ∧
        p.1 ∈ get_active_objects env.selectedNames)
    (id : String) (v : Rat)
    (hmem : (id, v) ∈ (tickPrep s env).last_update)
    (hdue : v < env.now ∧ 0 < v) :
    dlookup (heartbeat s env).state.last_update id = some (-1) ∧
    Eff.refresh id false ∈ (heartbeat s env).effs ∧
    ((Eff.updView3d id ∈ (heartbeat s env).effs ∧
        Eff.updUV id ∈ (heartbeat s env).effs) ↔
      env.updResult id false = true) ∧
    (env.updResult id false = true → Eff.redraw ∈ (heartbeat s env).effs) ∧
    (heartbeat s env).state.op = s.op := by
  have hvis3 : (tickPrep s env).uv_editor_visible = env.uvVisible :=
    (tickPrep_vis s env).trans hvis.symm
  have hc := core_noTrans_due (tickPrep s env)
    (get_active_objects env.selectedNames) env hvis3 hwf ⟨(id, v), hmem, hdue⟩
  obtain ⟨hclu, hcop, hceffs, hcvis⟩ := hc
  rw [heartbeat_run s env hact hok]
  dsimp only
  have hmemEffs : ∀ e : Eff, e ∈ dueEffs env.updResult env.now
      (tickPrep s env).last_update →
      e ∈ (modeSync (free s env.selectedNames).1 env).2 ++
        (heartbeatCore (tickPrep s env) (get_active_objects env.selectedNames)
          env).2.1 := by
    intro e he
    exact List.mem_append.2 (Or.inr ((hceffs e).2 (Or.inr he)))
  have hdueMem : ∀ e : Eff, e ∈ refreshEffs env.updResult id →
      e ∈ dueEffs env.updResult env.now (tickPrep s env).last_update := by
    intro e he
    exact (mem_dueEffs _ _ _ _).2 ⟨(id, v), hmem, hdue, he⟩
  refine ⟨?_, ?_, ⟨?_, ?_⟩, ?_, ?_⟩
  · rw [hclu]
    rw [dlookup_dueMap env.now (tickPrep s env).last_update id v hnd hmem]
    simp [hdue]
  · exact hmemEffs _ (hdueMem _ (refresh_mem_refreshEffs env.updResult id))
  · rintro ⟨h3, -⟩
    rcases List.mem_append.1 h3 with h3 | h3
    · have hmode := modeSync_effs (free s env.selectedNames).1 env _ h3
      simp at hmode
    · rcases (hceffs _).1 h3 with h4 | h4
      · rcases hcvis _ h4 with h5 | h5 <;> simp at h5
      · obtain ⟨q, -, -, hq⟩ := (mem_dueEffs _ _ _ _).1 h4
        obtain ⟨hq1, hq2⟩ := updView3d_mem_refreshEffs env.updResult id q.1 hq
        rw [← hq1]
        exact hq2
  · intro hch
    have h3 := mem_refreshEffs_of_changed env.updResult id hch
    exact ⟨hmemEffs _ (hdueMem _ h3.1), hmemEffs _ (hdueMem _ h3.2.1)⟩
  · intro hch
    have h3 := mem_refreshEffs_of_changed env.updResult id hch
    exact hmemEffs _ (hdueMem _ h3.2.2)
  · rw [hcop]
    exact tickPrep_op s env

/-- C2 witness: a concrete tick at time 2 with `Cube` pending at time 1. -/
theorem due_timestamps_processed_witness :
    dlookup (heartbeat
        ⟨false, "VERTEX", ["Cube"], [("Cube", 1)], none, false, false, false,
          "VERTEX", 0⟩
        ⟨true, ["Cube"], "VERTEX", false, 2, fun _ _ => true, []⟩).state.last_update
      "Cube" = some (-1) ∧
    Eff.refresh "Cube" false ∈ (heartbeat
        ⟨false, "VERTEX", ["Cube"], [("Cube", 1)], none, false, false, false,
          "VERTEX", 0⟩
        ⟨true, ["Cube"], "VERTEX", false, 2, fun _ _ => true, []⟩).effs ∧
    ((Eff.updView3d "Cube" ∈ (heartbeat
        ⟨false, "VERTEX", ["Cube"], [("Cube", 1)], none, false, false, false,
          "VERTEX", 0⟩
        ⟨true, ["Cube"], "VERTEX", false, 2, fun _ _ => true, []⟩).effs ∧
      Eff.updUV "Cube" ∈ (heartbeat
        ⟨false, "VERTEX", ["Cube"], [("Cube", 1)], none, false, false, false,
          "VERTEX", 0⟩
        ⟨true, ["Cube"], "VERTEX", false, 2, fun _ _ => true, []⟩).effs) ↔
      (fun (_ : String) (_ : Bool) => true) "Cube" false = true) ∧
    ((fun (_ : String) (_ : Bool) => true) "Cube" false = true →
      Eff.redraw ∈ (heartbeat
        ⟨false, "VERTEX", ["Cube"], [("Cube", 1)], none, false, false, false,
          "VERTEX", 0⟩
        ⟨true, ["Cube"], "VERTEX", false, 2, fun _ _ => true, []⟩).effs) ∧
    (heartbeat
        ⟨false, "VERTEX", ["Cube"], [("Cube", 1)], none, false, false, false,
          "VERTEX", 0⟩
        ⟨true, ["Cube"], "VERTEX", false, 2, fun _ _ => true, []⟩).state.op =
      (none : Option Op) :=
  due_timestamps_processed
    ⟨false, "VERTEX", ["Cube"], [("Cube", 1)], none, false, false, false,
      "VERTEX", 0⟩
    ⟨true, ["Cube"], "VERTEX", false, 2, fun _ _ => true, []⟩
    (by decide) (by decide) (by decide) (by decide) (by decide)
    "Cube" 1 (by decide) (by decide)

/-! ### Lemmas for the visibility-transition branch and cleanup -/

theorem refresh_mem_refreshEffs_eq (upd : String → Bool → Bool) (a b : String)
    (sel : Bool) : Eff.refresh a sel ∈ refreshEffs upd b → a = b ∧ sel = false := by
  unfold refreshEffs
  by_cases h : upd b false = true
  · rw [if_pos h]
    intro hm
    simp at hm
    exact hm
  · rw [if_neg h]
    intro hm
    simp at hm
    exact hm

theorem huvLoop_eq (md : List String) (upd : String → Bool → Bool) :
    ∀ l : List String, (∀ id ∈ l, id ∈ md) →
    huvLoop md upd l = (forceEffs upd l, true) := by
  intro l
  induction l with
  | nil => intro _; simp [huvLoop, forceEffs]
  | cons a rest ih =>
      intro h
      have ha : a ∈ md := h a (List.mem_cons_self _ _)
      have hrest : ∀ id ∈ rest, id ∈ md :=
        fun id hid => h id (List.mem_cons_of_mem _ hid)
      simp only [huvLoop, if_pos ha, ih hrest, forceEffs, List.foldr_cons]

theorem vis_toTrue (s3 : UpdaterState) (active : List String) (env : TickEnv)
    (hv : s3.uv_editor_visible = false) (ht : env.uvVisible = true)
    (hsub : ∀ id ∈ active, id ∈ s3.mesh_data) :
    handle_uv_edtitor_visibility_changed s3 active env =
      ⟨{ s3 with uv_editor_visible := true }, forceEffs env.updResult active,
        true, true⟩ := by
  unfold handle_uv_edtitor_visibility_changed
  rw [if_neg (show ¬ s3.uv_editor_visible = env.uvVisible by simp [hv, ht])]
  dsimp only
  rw [if_pos (show env.uvVisible = true from ht)]
  rw [huvLoop_eq s3.mesh_data env.updResult active hsub, ht]

theorem core_when_vis_fired (s3 : UpdaterState) (active : List String)
    (env : TickEnv)
    (hvok : (handle_uv_edtitor_visibility_changed s3 active env).ok = true)
    (hvf : (handle_uv_edtitor_visibility_changed s3 active env).fired = true) :
    heartbeatCore s3 active env =
      ((handle_uv_edtitor_visibility_changed s3 active env).state,
       (handle_uv_edtitor_visibility_changed s3 active env).effs, true) := by
  unfold heartbeatCore
  dsimp only
  rw [hvok, hvf]
  simp

theorem mem_forceEffs (upd : String → Bool → Bool) (l : List String) (e : Eff) :
    e ∈ forceEffs upd l ↔ ∃ id ∈ l, e ∈ refreshEffs upd id := by
  unfold forceEffs
  exact mem_foldr_append l _ e

theorem lazyInit_nil (s : UpdaterState) : lazyInit s [] = s := rfl

theorem lazyInit_cons (s : UpdaterState) (a : String) (rest : List String) :
    lazyInit s (a :: rest) =
      lazyInit (if a ∈ s.mesh_data then s
        else { s with mesh_data := s.mesh_data ++ [a],
                      last_update := dinsert s.last_update a (-1) }) rest := by
  unfold lazyInit
  rw [List.foldl_cons]

theorem lazyInit_md_mono (active : List String) (s : UpdaterState) :
    ∀ id ∈ s.mesh_data, id ∈ (lazyInit s active).mesh_data := by
  induction active generalizing s with
  | nil => intro id h; simpa [lazyInit_nil] using h
  | cons a rest ih =>
      intro id h
      rw [lazyInit_cons]
      by_cases ha : a ∈ s.mesh_data
      · rw [if_pos ha]
        exact ih s id h
      · rw [if_neg ha]
        exact ih _ id (by simp [h])

theorem lazyInit_mem_active (active : List String) (s : UpdaterState) :
    ∀ id ∈ active, id ∈ (lazyInit s active).mesh_data := by
  induction active generalizing s with
  | nil => intro id h; cases h
  | cons a rest ih =>
      intro id h
      rw [lazyInit_cons]
      rcases List.mem_cons.1 h with h | h
      · subst h
        by_cases ha : id ∈ s.mesh_data
        · rw [if_pos ha]
          exact lazyInit_md_mono rest s id ha
        · rw [if_neg ha]
          exact lazyInit_md_mono rest _ id (by simp)
      · by_cases ha : a ∈ s.mesh_data
        · rw [if_pos ha]
          exact ih s id h
        · rw [if_neg ha]
          exact ih _ id h

theorem tickPrep_active_md (s : UpdaterState) (env : TickEnv) :
    ∀ id ∈ get_active_objects env.selectedNames,
      id ∈ (tickPrep s env).mesh_data := by
  intro id h
  unfold tickPrep
  exact lazyInit_mem_active _ _ id h

theorem tickPrep_active_keys (s : UpdaterState) (env : TickEnv)
    (hsub : ∀ id ∈ s.mesh_data, id ∈ dkeys s.last_update) :
    ∀ id ∈ get_active_objects env.selectedNames,
      id ∈ dkeys (tickPrep s env).last_update := by
  intro id h
  exact tickPrep_sub s env hsub id (tickPrep_active_md s env id h)

theorem core_effs_fromVis (s3 : UpdaterState) (active : List String)
    (env : TickEnv) :
    ∀ e ∈ (handle_uv_edtitor_visibility_changed s3 active env).effs,
      e ∈ (heartbeatCore s3 active env).2.1 := by
  unfold heartbeatCore
  dsimp only
  split_ifs <;> intro e he
  · exact he
  · exact he
  · exact List.mem_append.2 (Or.inl he)
  · exact List.mem_append.2 (Or.inl he)
  · exact List.mem_append.2 (Or.inl (List.mem_append.2 (Or.inl he)))

theorem core_view3d (s3 : UpdaterState) (active : List String) (env : TickEnv) :
    (heartbeatCore s3 active env).1.view3d_enabled =
      (handle_uv_edtitor_visibility_changed s3 active env).state.view3d_enabled := by
  have hh := hidu_state
    (handle_uv_edtitor_visibility_changed s3 active env).state active env
  have ho := hsco_state
    (handle_id_updates
      (handle_uv_edtitor_visibility_changed s3 active env).state active env).state
    active env
  unfold heartbeatCore
  dsimp only
  split_ifs
  · rfl
  · rfl
  · exact hh.2.2.2.1
  · exact hh.2.2.2.1
  · exact ho.2.2.2.1.trans hh.2.2.2.1

theorem hiduLoop_lookup_notdue (md active : List String)
    (upd : String → Bool → Bool) (t : Rat) :
    ∀ (l : List (String × Rat)) (id : String) (v : Rat),
    dlookup l id = some v → ¬(v < t ∧ 0 < v) →
    dlookup (hiduLoop md active upd t l).1 id = some v := by
  intro l
  induction l with
  | nil => intro id v h _; simp [dlookup] at h
  | cons p rest ih =>
      intro id v h hnotdue
      obtain ⟨a, b⟩ := p
      by_cases hak : a = id
      · rw [dlookup, if_pos hak] at h
        injection h with hbv
        subst hbv
        simp only [hiduLoop, if_neg hnotdue]
        rw [dlookup, if_pos hak]
      · rw [dlookup, if_neg hak] at h
        by_cases hdue : b < t ∧ 0 < b
        · by_cases hm : a ∈ md ∧ a ∈ active
          · simp only [hiduLoop, if_pos hdue, if_pos hm]
            rw [dlookup, if_neg hak]
            exact ih id v h hnotdue
          · simp only [hiduLoop, if_pos hdue, if_neg hm]
            rw [dlookup, if_neg hak]
            exact h
        · simp only [hiduLoop, if_neg hdue]
          rw [dlookup, if_neg hak]
          exact ih id v h hnotdue

theorem hiduLoop_refresh_mem (md active : List String)
    (upd : String → Bool → Bool) (t : Rat) :
    ∀ (l : List (String × Rat)) (a : String), (dkeys l).Nodup →
    Eff.refresh a false ∈ (hiduLoop md active upd t l).2.1 →
    ∃ w, dlookup l a = some w ∧ w < t ∧ 0 < w := by
  intro l
  induction l with
  | nil => intro a _ hm; simp [hiduLoop] at hm
  | cons p rest ih =>
      intro a hnd hm
      obtain ⟨x, b⟩ := p
      rw [dkeys_cons, List.nodup_cons] at hnd
      by_cases hdue : b < t ∧ 0 < b
      · by_cases hmm : x ∈ md ∧ x ∈ active
        · simp only [hiduLoop, if_pos hdue, if_pos hmm] at hm
          rcases List.mem_append.1 hm with hm | hm
          · obtain ⟨hax, -⟩ := refresh_mem_refreshEffs_eq upd a x false hm
            subst hax
            exact ⟨b, by rw [dlookup, if_pos rfl], hdue⟩
          · obtain ⟨w, hw, hww⟩ := ih a hnd.2 hm
            have hxa : ¬ x = a := by
              intro hh
              subst hh
              exact hnd.1 (mem_dkeys_of_mem rest (_, w) (dlookup_mem rest _ w hw))
            exact ⟨w, by rw [dlookup, if_neg hxa]; exact hw, hww⟩
        · simp only [hiduLoop, if_pos hdue, if_neg hmm] at hm
          simp at hm
      · simp only [hiduLoop, if_neg hdue] at hm
        obtain ⟨w, hw, hww⟩ := ih a hnd.2 hm
        have hxa : ¬ x = a := by
          intro hh
          subst hh
          exact hnd.1 (mem_dkeys_of_mem rest (_, w) (dlookup_mem rest _ w hw))
        exact ⟨w, by rw [dlookup, if_neg hxa]; exact hw, hww⟩

theorem hscoLoop_effs (active : List String) (upd : String → Bool → Bool) :
    ∀ (l : List String) (e : Eff), e ∈ (hscoLoop active upd l).1 →
    ∃ b, e ∈ selEffs upd b := by
  intro l
  induction l with
  | nil => intro e he; simp [hscoLoop] at he
  | cons a rest ih =>
      intro e he
      by_cases ha : a ∈ active
      · simp only [hscoLoop, if_pos ha] at he
        rcases List.mem_append.1 he with he | he
        · exact ⟨a, he⟩
        · exact ih e he
      · simp only [hscoLoop, if_neg ha] at he
        simp at he

theorem hsco_effs (s : UpdaterState) (active : List String) (env : TickEnv) :
    ∀ e ∈ (handle_selection_changed_ops s active env).effs,
      ∃ b, e ∈ selEffs env.updResult b := by
  unfold handle_selection_changed_ops
  cases env.operators.getLast? with
  | none => intro e he; simp at he
  | some op =>
      dsimp only
      split_ifs with h1 h2 <;> intro e he
      · simp at he
      · exact hscoLoop_effs active env.updResult _ e he
      · simp at he

theorem core_effs_origin (s3 : UpdaterState) (active : List String)
    (env : TickEnv) (e : Eff) :
    e ∈ (heartbeatCore s3 active env).2.1 →
      e ∈ (handle_uv_edtitor_visibility_changed s3 active env).effs ∨
      e ∈ (handle_id_updates
        (handle_uv_edtitor_visibility_changed s3 active env).state active
        env).effs ∨
      (∃ b, e ∈ selEffs env.updResult b) := by
  unfold heartbeatCore
  dsimp only
  split_ifs <;> intro he
  · exact Or.inl he
  · exact Or.inl he
  · rcases List.mem_append.1 he with he | he
    · exact Or.inl he
    · exact Or.inr (Or.inl he)
  · rcases List.mem_append.1 he with he | he
    · exact Or.inl he
    · exact Or.inr (Or.inl he)
  · rcases List.mem_append.1 he with he | he
    · rcases List.mem_append.1 he with he | he
      · exact Or.inl he
      · exact Or.inr (Or.inl he)
    · exact Or.inr (Or.inr (hsco_effs _ active env e he))

theorem core_lookup_notdue (s3 : UpdaterState) (active : List String)
    (env : TickEnv) (id : String) (w : Rat)
    (h : dlookup s3.last_update id = some w)
    (hnotdue : ¬(w < env.now ∧ 0 < w)) :
    dlookup (heartbeatCore s3 active env).1.last_update id = some w := by
  have hv := huv_state s3 active env
  have hh : dlookup (handle_id_updates
      (handle_uv_edtitor_visibility_changed s3 active env).state active
      env).state.last_update id = some w := by
    show dlookup (hiduLoop (handle_uv_edtitor_visibility_changed s3 active
      env).state.mesh_data active env.updResult env.now
      (handle_uv_edtitor_visibility_changed s3 active env).state.last_update).1
        id = some w
    rw [hv.2.1]
    exact hiduLoop_lookup_notdue _ _ _ _ _ id w h hnotdue
  have ho := hsco_state (handle_id_updates
    (handle_uv_edtitor_visibility_changed s3 active env).state active
    env).state active env
  unfold heartbeatCore
  dsimp only
  split_ifs
  · rw [hv.2.1]; exact h
  · rw [hv.2.1]; exact h
  · exact hh
  · exact hh
  · rw [ho.2.1]; exact hh

theorem freeRun_lu_none (obs : List String) (s : UpdaterState) (id : String)
    (h : dlookup s.last_update id = none) :
    dlookup (freeRun obs s).1.last_update id = none := by
  induction obs generalizing s with
  | nil => simpa [freeRun] using h
  | cons x rest ih =>
      by_cases hs : (dlookup s.last_update x).isSome = true
      · simp only [freeRun, if_pos hs]
        apply ih
        by_cases hix : id = x
        · subst hix
          exact dlookup_derase_self _ _
        · show dlookup (derase s.last_update x) id = none
          rw [dlookup_derase_ne _ _ _ hix]
          exact h
      · simpa [freeRun, hs] using h

theorem freeRun_md_not_mem (obs : List String) (s : UpdaterState) (id : String)
    (h : id ∉ s.mesh_data) : id ∉ (freeRun obs s).1.mesh_data := by
  induction obs generalizing s with
  | nil => simpa [freeRun] using h
  | cons x rest ih =>
      by_cases hs : (dlookup s.last_update x).isSome = true
      · simp only [freeRun, if_pos hs]
        apply ih
        intro hmem
        exact h (List.mem_of_mem_filter hmem)
      · simpa [freeRun, hs] using h

theorem isSome_of_mem_dkeys (m : List (String × Rat)) (k : String)
    (h : k ∈ dkeys m) : (dlookup m k).isSome = true := by
  rcases hl : dlookup m k with _ | w
  · exact absurd h (fun hh => (dlookup_eq_none_iff m k).1 hl hh)
  · rfl

theorem freeRun_removes (obs : List String) (s : UpdaterState)
    (hnd : obs.Nodup) (hsub : ∀ a ∈ obs, a ∈ dkeys s.last_update) :
    ∀ id ∈ obs, dlookup (freeRun obs s).1.last_update id = none ∧
      id ∉ (freeRun obs s).1.mesh_data := by
  induction obs generalizing s with
  | nil => intro id h; cases h
  | cons x rest ih =>
      rw [List.nodup_cons] at hnd
      intro id hid
      have hs : (dlookup s.last_update x).isSome = true :=
        isSome_of_mem_dkeys _ _ (hsub x (List.mem_cons_self _ _))
      simp only [freeRun, if_pos hs]
      rcases List.mem_cons.1 hid with rfl | hid
      · constructor
        · apply freeRun_lu_none
          exact dlookup_derase_self _ _
        · apply freeRun_md_not_mem
          intro hmem
          have := List.mem_filter.1 hmem
          simp at this
      · refine ih _ hnd.2 (fun a ha => ?_) id hid
        have h1 := hsub a (List.mem_cons_of_mem _ ha)
        have h2 : a ≠ x := fun hh => hnd.1 (hh ▸ ha)
        exact (mem_dkeys_derase _ _ _).2 ⟨h1, h2⟩

theorem freeRun_ok (obs : List String) (s : UpdaterState)
    (hsub : ∀ a ∈ obs, a ∈ dkeys s.last_update) (hnd : obs.Nodup) :
    (freeRun obs s).2 = true := by
  induction obs generalizing s with
  | nil => rfl
  | cons x rest ih =>
      rw [List.nodup_cons] at hnd
      have hs : (dlookup s.last_update x).isSome = true :=
        isSome_of_mem_dkeys _ _ (hsub x (List.mem_cons_self _ _))
      simp only [freeRun, if_pos hs]
      refine ih _ (fun a ha => ?_) hnd.2
      have h1 := hsub a (List.mem_cons_of_mem _ ha)
      have h2 : a ≠ x := fun hh => hnd.1 (hh ▸ ha)
      exact (mem_dkeys_derase _ _ _).2 ⟨h1, h2⟩

theorem free_ok (s : UpdaterState) (selected : List String)
    (hmd : s.mesh_data.Nodup)
    (hsub : ∀ id ∈ s.mesh_data, id ∈ dkeys s.last_update) :
    (free s selected).2 = true := by
  unfold free
  refine freeRun_ok _ s (fun a ha => ?_) (hmd.filter _)
  exact hsub a (List.mem_of_mem_filter ha)

theorem derase_dkeys_sublist (m : List (String × Rat)) (k : String) :
    List.Sublist (dkeys (derase m k)) (dkeys m) := by
  unfold derase dkeys
  exact List.Sublist.map _ (List.filter_sublist _)

theorem freeRun_dkeys_nodup (obs : List String) (s : UpdaterState)
    (h : (dkeys s.last_update).Nodup) :
    (dkeys (freeRun obs s).1.last_update).Nodup := by
  induction obs generalizing s with
  | nil => simpa [freeRun] using h
  | cons x rest ih =>
      by_cases hs : (dlookup s.last_update x).isSome = true
      · simp only [freeRun, if_pos hs]
        exact ih _ ((derase_dkeys_sublist s.last_update x).nodup h)
      · simpa [freeRun, hs] using h

theorem freeRun_md_nodup (obs : List String) (s : UpdaterState)
    (h : s.mesh_data.Nodup) : (freeRun obs s).1.mesh_data.Nodup := by
  induction obs generalizing s with
  | nil => simpa [freeRun] using h
  | cons x rest ih =>
      by_cases hs : (dlookup s.last_update x).isSome = true
      · simp only [freeRun, if_pos hs]
        exact ih _ (h.filter _)
      · simpa [freeRun, hs] using h

theorem lazyInit_dkeys_nodup (active : List String) (s : UpdaterState)
    (h : (dkeys s.last_update).Nodup) :
    (dkeys (lazyInit s active).last_update).Nodup := by
  induction active generalizing s with
  | nil => simpa [lazyInit_nil] using h
  | cons a rest ih =>
      rw [lazyInit_cons]
      by_cases ha : a ∈ s.mesh_data
      · rw [if_pos ha]
        exact ih s h
      · rw [if_neg ha]
        exact ih _ (dkeys_dinsert_nodup _ _ _ h)

theorem lazyInit_md_nodup (active : List String) (s : UpdaterState)
    (h : s.mesh_data.Nodup) : (lazyInit s active).mesh_data.Nodup := by
  induction active generalizing s with
  | nil => simpa [lazyInit_nil] using h
  | cons a rest ih =>
      rw [lazyInit_cons]
      by_cases ha : a ∈ s.mesh_data
      · rw [if_pos ha]
        exact ih s h
      · rw [if_neg ha]
        exact ih _ (by simp [List.nodup_append, h, ha])

theorem tickPrep_nodup_keys (s : UpdaterState) (env : TickEnv)
    (h : (dkeys s.last_update).Nodup) :
    (dkeys (tickPrep s env).last_update).Nodup := by
  unfold tickPrep
  apply lazyInit_dkeys_nodup
  rw [(modeSync_fields _ _).2.1]
  exact freeRun_dkeys_nodup _ _ h

theorem tickPrep_md_nodup (s : UpdaterState) (env : TickEnv)
    (h : s.mesh_data.Nodup) : (tickPrep s env).mesh_data.Nodup := by
  unfold tickPrep
  apply lazyInit_md_nodup
  rw [(modeSync_fields _ _).1]
  exact freeRun_md_nodup _ _ h

theorem heartbeat_md_nodup (s : UpdaterState) (env : TickEnv)
    (h : s.mesh_data.Nodup) : (heartbeat s env).state.mesh_data.Nodup := by
  by_cases hact : env.activeIsMesh = true
  · by_cases hok : (free s env.selectedNames).2 = true
    · rw [heartbeat_run s env hact hok]
      dsimp only
      rw [core_mesh_data]
      exact tickPrep_md_nodup s env h
    · rw [heartbeat_freeFail s env hact (by simpa using hok)]
      exact freeRun_md_nodup _ _ h
  · rw [heartbeat_inactive s env (by simpa using hact)]
    exact h

theorem lazyInit_lookup_not_mem (active : List String) (s : UpdaterState)
    (id : String) (h : id ∉ active) :
    dlookup (lazyInit s active).last_update id = dlookup s.last_update id := by
  induction active generalizing s with
  | nil => rfl
  | cons a rest ih =>
      have hia : id ≠ a := fun hh => h (hh ▸ List.mem_cons_self _ _)
      have hrest : id ∉ rest := fun hh => h (List.mem_cons_of_mem _ hh)
      rw [lazyInit_cons]
      by_cases ha : a ∈ s.mesh_data
      · rw [if_pos ha]
        exact ih _ hrest
      · rw [if_neg ha, ih _ hrest]
        show dlookup (dinsert s.last_update a (-1)) id = dlookup s.last_update id
        rw [dlookup_dinsert]
        rw [if_neg (fun hh => hia hh.symm)]

theorem lazyInit_lookup_fresh (active : List String) (s : UpdaterState)
    (id : String) (hnd : active.Nodup) (hmem : id ∈ active)
    (hnm : id ∉ s.mesh_data) :
    dlookup (lazyInit s active).last_update id = some (-1) := by
  induction active generalizing s with
  | nil => cases hmem
  | cons a rest ih =>
      rw [List.nodup_cons] at hnd
      rw [lazyInit_cons]
      rcases List.mem_cons.1 hmem with rfl | h
      · rw [if_neg hnm, lazyInit_lookup_not_mem rest _ id hnd.1]
        show dlookup (dinsert s.last_update id (-1)) id = some (-1)
        exact dlookup_dinsert_self _ _ _
      · have hia : id ≠ a := fun hh => hnd.1 (hh ▸ h)
        by_cases ha : a ∈ s.mesh_data
        · rw [if_pos ha]
          exact ih _ hnd.2 h hnm
        · rw [if_neg ha]
          refine ih _ hnd.2 h ?_
          simp [hnm, hia]

/-- C5: when UV-editor visibility flips false→true on a tick that also has a
due pending timestamp, only the visibility-transition branch executes: every
active object is force-refreshed (`selectionOnly = false`) and pushed if
changed, the pending timestamps are left untouched for a later tick, no
selection-only refresh happens, and the `op` field (step 8) is untouched. -/
theorem visibility_transition_shortcircuit (s : UpdaterState) (env : TickEnv)
    (hact : env.activeIsMesh = true)
    (hok : (free s env.selectedNames).2 = true)
    (hfalse : s.uv_editor_visible = false)
    (htrue : env.uvVisible = true)
    (hdue : ∃ p ∈ (tickPrep s env).last_update, p.2 < env.now ∧ 0 < p.2) :
    (heartbeat s env).state.last_update = (tickPrep s env).last_update ∧
    (heartbeat s env).state.uv_editor_visible = true ∧
    (∀ id ∈ get_active_objects env.selectedNames,
      Eff.refresh id false ∈ (heartbeat s env).effs ∧
      (env.updResult id false = true →
        Eff.updView3d id ∈ (heartbeat s env).effs ∧
        Eff.updUV id ∈ (heartbeat s env).effs ∧
        Eff.redraw ∈ (heartbeat s env).effs)) ∧
    (∀ id : String, Eff.refresh id true ∉ (heartbeat s env).effs) ∧
    (heartbeat s env).state.op = s.op := by
  have hprepvis : (tickPrep s env).uv_editor_visible = false :=
    (tickPrep_vis s env).trans hfalse
  have hv := vis_toTrue (tickPrep s env) (get_active_objects env.selectedNames)
    env hprepvis htrue (tickPrep_active_md s env)
  have hvok : (handle_uv_edtitor_visibility_changed (tickPrep s env)
      (get_active_objects env.selectedNames) env).ok = true := by rw [hv]
  have hvf : (handle_uv_edtitor_visibility_changed (tickPrep s env)
      (get_active_objects env.selectedNames) env).fired = true := by rw [hv]
  rw [heartbeat_run s env hact hok, core_when_vis_fired _ _ _ hvok hvf, hv]
  dsimp only
  refine ⟨rfl, rfl, ?_, ?_, tickPrep_op s env⟩
  · intro id hid
    constructor
    · exact List.mem_append.2 (Or.inr ((mem_forceEffs _ _ _).2
        ⟨id, hid, refresh_mem_refreshEffs env.updResult id⟩))
    · intro hch
      have h3 := mem_refreshEffs_of_changed env.updResult id hch
      exact ⟨List.mem_append.2 (Or.inr ((mem_forceEffs _ _ _).2 ⟨id, hid, h3.1⟩)),
        List.mem_append.2 (Or.inr ((mem_forceEffs _ _ _).2 ⟨id, hid, h3.2.1⟩)),
        List.mem_append.2 (Or.inr ((mem_forceEffs _ _ _).2 ⟨id, hid, h3.2.2⟩))⟩
  · intro id hmem
    rcases List.mem_append.1 hmem with hm | hm
    · have hmode := modeSync_effs _ env _ hm
      simp at hmode
    · obtain ⟨b, hb, hrb⟩ := (mem_forceEffs _ _ _).1 hm
      have hcon := refresh_mem_refreshEffs_eq env.updResult id b true hrb
      simp at hcon

/-- C5 witness: visibility flips false→true at time 2 while `Cube` is due. -/
theorem visibility_transition_shortcircuit_witness :
    (heartbeat
        ⟨false, "VERTEX", ["Cube"], [("Cube", 1)], none, false, false, false,
          "VERTEX", 0⟩
        ⟨true, ["Cube"], "VERTEX", true, 2, fun _ _ => true, []⟩).state.last_update =
      (tickPrep
        ⟨false, "VERTEX", ["Cube"], [("Cube", 1)], none, false, false, false,
          "VERTEX", 0⟩
        ⟨true, ["Cube"], "VERTEX", true, 2, fun _ _ => true, []⟩).last_update ∧
    (heartbeat
        ⟨false, "VERTEX", ["Cube"], [("Cube", 1)], none, false, false, false,
          "VERTEX", 0⟩
        ⟨true, ["Cube"], "VERTEX", true, 2, fun _ _ => true, []⟩).state.uv_editor_visible
      = true ∧
    (∀ id ∈ get_active_objects ["Cube"],
      Eff.refresh id false ∈ (heartbeat
        ⟨false, "VERTEX", ["Cube"], [("Cube", 1)], none, false, false, false,
          "VERTEX", 0⟩
        ⟨true, ["Cube"], "VERTEX", true, 2, fun _ _ => true, []⟩).effs ∧
      ((fun (_ : String) (_ : Bool) => true) id false = true →
        Eff.updView3d id ∈ (heartbeat
          ⟨false, "VERTEX", ["Cube"], [("Cube", 1)], none, false, false, false,
            "VERTEX", 0⟩
          ⟨true, ["Cube"], "VERTEX", true, 2, fun _ _ => true, []⟩).effs ∧
        Eff.updUV id ∈ (heartbeat
          ⟨false, "VERTEX", ["Cube"], [("Cube", 1)], none, false, false, false,
            "VERTEX", 0⟩
          ⟨true, ["Cube"], "VERTEX", true, 2, fun _ _ => true, []⟩).effs ∧
        Eff.redraw ∈ (heartbeat
          ⟨false, "VERTEX", ["Cube"], [("Cube", 1)], none, false, false, false,
            "VERTEX", 0⟩
          ⟨true, ["Cube"], "VERTEX", true, 2, fun _ _ => true, []⟩).effs)) ∧
    (∀ id : String, Eff.refresh id true ∉ (heartbeat
        ⟨false, "VERTEX", ["Cube"], [("Cube", 1)], none, false, false, false,
          "VERTEX", 0⟩
        ⟨true, ["Cube"], "VERTEX", true, 2, fun _ _ => true, []⟩).effs) ∧
    (heartbeat
        ⟨false, "VERTEX", ["Cube"], [("Cube", 1)], none, false, false, false,
          "VERTEX", 0⟩
        ⟨true, ["Cube"], "VERTEX", true, 2, fun _ _ => true, []⟩).state.op =
      (none : Option Op) :=
  visibility_transition_shortcircuit
    ⟨false, "VERTEX", ["Cube"], [("Cube", 1)], none, false, false, false,
      "VERTEX", 0⟩
    ⟨true, ["Cube"], "VERTEX", true, 2, fun _ _ => true, []⟩
    (by decide) (by decide) (by decide) (by decide) (by decide)

/-- C6: a qualifying geometry notification that schedules a pending timestamp
for an identity not yet tracked in `mesh_data` is discarded: the next tick's
lazy-initialization step overwrites the timestamp with the sentinel `-1`
before the due-timestamp step runs, so that entry is never processed (no
non-selection-only refresh of that identity happens on the tick). -/
theorem lazy_init_discards_scheduled_refresh (s : UpdaterState) (env : TickEnv)
    (id : String) (v : Rat)
    (hact : env.activeIsMesh = true)
    (hok : (free s env.selectedNames).2 = true)
    (hnm : id ∉ s.mesh_data)
    (hsel : id ∈ env.selectedNames)
    (hlu : dlookup s.last_update id = some v)
    (hv : 0 < v)
    (hvis : env.uvVisible = s.uv_editor_visible)
    (hnd : (dkeys s.last_update).Nodup) :
    dlookup (tickPrep s env).last_update id = some (-1) ∧
    dlookup (heartbeat s env).state.last_update id = some (-1) ∧
    Eff.refresh id false ∉ (heartbeat s env).effs := by
  have h1 : dlookup (tickPrep s env).last_update id = some (-1) := by
    unfold tickPrep
    apply lazyInit_lookup_fresh
    · exact nodup_get_active_objects _
    · exact (mem_get_active_objects _ _).2 hsel
    · rw [(modeSync_fields _ _).1]
      exact freeRun_md_not_mem _ s id hnm
  have hnotdue : ¬ ((-1 : Rat) < env.now ∧ (0 : Rat) < -1) := by
    rintro ⟨-, hcon⟩
    norm_num at hcon
  refine ⟨h1, ?_, ?_⟩
  · rw [heartbeat_run s env hact hok]
    dsimp only
    exact core_lookup_notdue _ _ env id (-1) h1 hnotdue
  · have hvis3 : (tickPrep s env).uv_editor_visible = env.uvVisible :=
      (tickPrep_vis s env).trans hvis.symm
    obtain ⟨hvf, hvok, hvlu, hvmd, hvop, hven, hveffs, -⟩ :=
      vis_noTrans (tickPrep s env) (get_active_objects env.selectedNames) env
        hvis3
    intro hmem
    rw [heartbeat_run s env hact hok] at hmem
    dsimp only at hmem
    rcases List.mem_append.1 hmem with hm | hm
    · have hmode := modeSync_effs _ env _ hm
      simp at hmode
    · rcases core_effs_origin _ _ env _ hm with hm | hm | ⟨b, hb⟩
      · rcases hveffs _ hm with h | h <;> simp at h
      · have hnd2 : (dkeys (handle_uv_edtitor_visibility_changed (tickPrep s env)
            (get_active_objects env.selectedNames) env).state.last_update).Nodup := by
          rw [hvlu]
          exact tickPrep_nodup_keys s env hnd
        obtain ⟨w, hw, hww⟩ := hiduLoop_refresh_mem _ _ env.updResult env.now _
          id hnd2 hm
        rw [hvlu, h1] at hw
        injection hw with hw1
        rw [← hw1] at hww
        exact absurd hww.2 (by norm_num)
      · have hcon := refresh_false_mem_selEffs env.updResult id b false hb
        simp at hcon

/-- C6 witness: `Cube` has a pending timestamp but no snapshot; the next tick
resets it to the sentinel and performs no refresh of `Cube`. -/
theorem lazy_init_discards_scheduled_refresh_witness :
    dlookup (tickPrep
        ⟨false, "VERTEX", [], [("Cube", 5)], none, false, false, false,
          "VERTEX", 0⟩
        ⟨true, ["Cube"], "VERTEX", false, 9, fun _ _ => true, []⟩).last_update
      "Cube" = some (-1) ∧
    dlookup (heartbeat
        ⟨false, "VERTEX", [], [("Cube", 5)], none, false, false, false,
          "VERTEX", 0⟩
        ⟨true, ["Cube"], "VERTEX", false, 9, fun _ _ => true, []⟩).state.last_update
      "Cube" = some (-1) ∧
    Eff.refresh "Cube" false ∉ (heartbeat
        ⟨false, "VERTEX", [], [("Cube", 5)], none, false, false, false,
          "VERTEX", 0⟩
        ⟨true, ["Cube"], "VERTEX", false, 9, fun _ _ => true, []⟩).effs :=
  lazy_init_discards_scheduled_refresh
    ⟨false, "VERTEX", [], [("Cube", 5)], none, false, false, false, "VERTEX", 0⟩
    ⟨true, ["Cube"], "VERTEX", false, 9, fun _ _ => true, []⟩
    "Cube" 5 (by decide) (by decide) (by decide) (by decide) (by decide)
    (by decide) (by decide) (by decide)

/-- C9: on a tick with an active mesh object where UV-editor visibility is
false and unchanged, the visibility handler does not short-circuit the tick
(it returns false); if the 3D surface was enabled it is disabled and a redraw
is requested, and at the end of any such tick the 3D surface is disabled. -/
theorem view3d_disabled_without_transition (s : UpdaterState) (env : TickEnv)
    (hact : env.activeIsMesh = true)
    (hok : (free s env.selectedNames).2 = true)
    (hfalse : s.uv_editor_visible = false)
    (henv : env.uvVisible = false) :
    (handle_uv_edtitor_visibility_changed (tickPrep s env)
      (get_active_objects env.selectedNames) env).fired = false ∧
    (s.view3d_enabled = true →
      Eff.disableView3d ∈ (heartbeat s env).effs ∧
      Eff.redraw ∈ (heartbeat s env).effs) ∧
    (heartbeat s env).state.view3d_enabled = false := by
  have hvis3 : (tickPrep s env).uv_editor_visible = env.uvVisible := by
    rw [tickPrep_vis, hfalse, henv]
  obtain ⟨hvf, hvok, hvlu, hvmd, hvop, hven, hveffs, hvexact⟩ :=
    vis_noTrans (tickPrep s env) (get_active_objects env.selectedNames) env
      hvis3
  refine ⟨hvf, ?_, ?_⟩
  · intro hen
    have heq := hvexact (by rw [tickPrep_view3d]; exact hen)
      (by rw [tickPrep_vis]; exact hfalse)
    have hd : Eff.disableView3d ∈ (handle_uv_edtitor_visibility_changed
        (tickPrep s env) (get_active_objects env.selectedNames) env).effs := by
      rw [heq]
      simp
    have hr : Eff.redraw ∈ (handle_uv_edtitor_visibility_changed
        (tickPrep s env) (get_active_objects env.selectedNames) env).effs := by
      rw [heq]
      simp
    rw [heartbeat_run s env hact hok]
    dsimp only
    exact ⟨List.mem_append.2 (Or.inr (core_effs_fromVis _ _ _ _ hd)),
      List.mem_append.2 (Or.inr (core_effs_fromVis _ _ _ _ hr))⟩
  · rw [heartbeat_run s env hact hok]
    dsimp only
    rw [core_view3d, hven, henv]
    simp

/-- C9 witness: a concrete non-transition tick with the 3D surface enabled. -/
theorem view3d_disabled_without_transition_witness :
    (handle_uv_edtitor_visibility_changed (tickPrep
        ⟨false, "VERTEX", ["Cube"], [("Cube", -1)], none, false, true, false,
          "VERTEX", 0⟩
        ⟨true, ["Cube"], "VERTEX", false, 0, fun _ _ => false, []⟩)
      (get_active_objects ["Cube"])
      ⟨true, ["Cube"], "VERTEX", false, 0, fun _ _ => false, []⟩).fired = false ∧
    ((true : Bool) = true →
      Eff.disableView3d ∈ (heartbeat
        ⟨false, "VERTEX", ["Cube"], [("Cube", -1)], none, false, true, false,
          "VERTEX", 0⟩
        ⟨true, ["Cube"], "VERTEX", false, 0, fun _ _ => false, []⟩).effs ∧
      Eff.redraw ∈ (heartbeat
        ⟨false, "VERTEX", ["Cube"], [("Cube", -1)], none, false, true, false,
          "VERTEX", 0⟩
        ⟨true, ["Cube"], "VERTEX", false, 0, fun _ _ => false, []⟩).effs) ∧
    (heartbeat
        ⟨false, "VERTEX", ["Cube"], [("Cube", -1)], none, false, true, false,
          "VERTEX", 0⟩
        ⟨true, ["Cube"], "VERTEX", false, 0, fun _ _ => false, []⟩).state.view3d_enabled
      = false :=
  view3d_disabled_without_transition
    ⟨false, "VERTEX", ["Cube"], [("Cube", -1)], none, false, true, false,
      "VERTEX", 0⟩
    ⟨true, ["Cube"], "VERTEX", false, 0, fun _ _ => false, []⟩
    (by decide) (by decide) (by decide) (by decide)

theorem lazyInit_md_not_mem (active : List String) (s : UpdaterState)
    (id : String) (h : id ∉ active) :
    id ∈ (lazyInit s active).mesh_data ↔ id ∈ s.mesh_data := by
  induction active generalizing s with
  | nil => rw [lazyInit_nil]
  | cons a rest ih =>
      have hia : id ≠ a := fun hh => h (hh ▸ List.mem_cons_self _ _)
      have hrest : id ∉ rest := fun hh => h (List.mem_cons_of_mem _ hh)
      rw [lazyInit_cons]
      by_cases ha : a ∈ s.mesh_data
      · rw [if_pos ha]
        exact ih _ hrest
      · rw [if_neg ha, ih _ hrest]
        simp [hia]

/-- C8: if A and B are both active on one tick (both get snapshot and
timestamp entries) and the next tick's selection contains only A (with a mesh
active object), then after that second tick B is gone from both mappings and
A's entries remain. -/
theorem deselected_object_cleaned_up (s0 : UpdaterState) (envAB envA : TickEnv)
    (A B : String) (hne : A ≠ B)
    (hmd0 : s0.mesh_data.Nodup)
    (hsub0 : ∀ id ∈ s0.mesh_data, id ∈ dkeys s0.last_update)
    (hact1 : envAB.activeIsMesh = true) (hsel1 : envAB.selectedNames = [A, B])
    (hact2 : envA.activeIsMesh = true) (hsel2 : envA.selectedNames = [A]) :
    (A ∈ (heartbeat s0 envAB).state.mesh_data ∧
     B ∈ (heartbeat s0 envAB).state.mesh_data ∧
     A ∈ dkeys (heartbeat s0 envAB).state.last_update ∧
     B ∈ dkeys (heartbeat s0 envAB).state.last_update) ∧
    (B ∉ (heartbeat (heartbeat s0 envAB).state envA).state.mesh_data ∧
     dlookup (heartbeat (heartbeat s0 envAB).state envA).state.last_update B
       = none) ∧
    (A ∈ (heartbeat (heartbeat s0 envAB).state envA).state.mesh_data ∧
     A ∈ dkeys (heartbeat (heartbeat s0 envAB).state envA).state.last_update) := by
  have hok1 : (free s0 envAB.selectedNames).2 = true := free_ok s0 _ hmd0 hsub0
  have hA1 : A ∈ get_active_objects envAB.selectedNames := by
    rw [hsel1, mem_get_active_objects]
    simp
  have hB1 : B ∈ get_active_objects envAB.selectedNames := by
    rw [hsel1, mem_get_active_objects]
    simp
  have hmd1 : (heartbeat s0 envAB).state.mesh_data =
      (tickPrep s0 envAB).mesh_data := by
    rw [heartbeat_run s0 envAB hact1 hok1]
    dsimp only
    exact core_mesh_data _ _ _
  have hk1 : dkeys (heartbeat s0 envAB).state.last_update =
      dkeys (tickPrep s0 envAB).last_update := by
    rw [heartbeat_run s0 envAB hact1 hok1]
    dsimp only
    exact core_dkeys _ _ _
  have hsub1 := heartbeat_sub s0 envAB hsub0
  have hmdnd1 := heartbeat_md_nodup s0 envAB hmd0
  have hok2 : (free (heartbeat s0 envAB).state envA.selectedNames).2 = true :=
    free_ok _ _ hmdnd1 hsub1
  have hBna : B ∉ get_active_objects envA.selectedNames := by
    rw [hsel2, mem_get_active_objects]
    intro hmem
    rcases List.mem_cons.1 hmem with hmem | hmem
    · exact hne hmem.symm
    · cases hmem
  have hAa2 : A ∈ get_active_objects envA.selectedNames := by
    rw [hsel2, mem_get_active_objects]
    simp
  have hBmd1 : B ∈ (heartbeat s0 envAB).state.mesh_data := by
    rw [hmd1]
    exact tickPrep_active_md s0 envAB B hB1
  have hBobs : B ∈ (heartbeat s0 envAB).state.mesh_data.filter
      (fun id => id ∉ get_active_objects envA.selectedNames) := by
    refine List.mem_filter.2 ⟨hBmd1, ?_⟩
    simp [hBna]
  have hrem := freeRun_removes
    ((heartbeat s0 envAB).state.mesh_data.filter
      (fun id => id ∉ get_active_objects envA.selectedNames))
    (heartbeat s0 envAB).state (hmdnd1.filter _)
    (fun a ha => hsub1 a (List.mem_of_mem_filter ha)) B hBobs
  have hp2luB : dlookup (tickPrep (heartbeat s0 envAB).state envA).last_update B
      = none := by
    unfold tickPrep
    rw [lazyInit_lookup_not_mem _ _ B hBna, (modeSync_fields _ _).2.1]
    exact hrem.1
  have hp2mdB : B ∉ (tickPrep (heartbeat s0 envAB).state envA).mesh_data := by
    unfold tickPrep
    intro hmem
    have h2 := (lazyInit_md_not_mem _ _ B hBna).1 hmem
    rw [(modeSync_fields _ _).1] at h2
    exact hrem.2 h2
  have hmd2 : (heartbeat (heartbeat s0 envAB).state envA).state.mesh_data =
      (tickPrep (heartbeat s0 envAB).state envA).mesh_data := by
    rw [heartbeat_run _ envA hact2 hok2]
    dsimp only
    exact core_mesh_data _ _ _
  have hk2 : dkeys (heartbeat (heartbeat s0 envAB).state envA).state.last_update
      = dkeys (tickPrep (heartbeat s0 envAB).state envA).last_update := by
    rw [heartbeat_run _ envA hact2 hok2]
    dsimp only
    exact core_dkeys _ _ _
  refine ⟨⟨?_, ?_, ?_, ?_⟩, ⟨?_, ?_⟩, ?_, ?_⟩
  · rw [hmd1]
    exact tickPrep_active_md s0 envAB A hA1
  · exact hBmd1
  · rw [hk1]
    exact tickPrep_active_keys s0 envAB hsub0 A hA1
  · rw [hk1]
    exact tickPrep_active_keys s0 envAB hsub0 B hB1
  · rw [hmd2]
    exact hp2mdB
  · rw [dlookup_eq_none_iff, hk2]
    exact (dlookup_eq_none_iff _ _).1 hp2luB
  · rw [hmd2]
    exact tickPrep_active_md _ envA A hAa2
  · rw [hk2]
    exact tickPrep_active_keys _ envA hsub1 A hAa2

/-- C8 witness: from the empty initial state, a tick with {A, B} selected
then a tick with only {A}. -/
theorem deselected_object_cleaned_up_witness :
    ("A" ∈ (heartbeat (initState false false "VERTEX" 0)
        ⟨true, ["A", "B"], "VERTEX", false, 0, fun _ _ => false, []⟩).state.mesh_data ∧
     "B" ∈ (heartbeat (initState false false "VERTEX" 0)
        ⟨true, ["A", "B"], "VERTEX", false, 0, fun _ _ => false, []⟩).state.mesh_data ∧
     "A" ∈ dkeys (heartbeat (initState false false "VERTEX" 0)
        ⟨true, ["A", "B"], "VERTEX", false, 0, fun _ _ => false, []⟩).state.last_update ∧
     "B" ∈ dkeys (heartbeat (initState false false "VERTEX" 0)
        ⟨true, ["A", "B"], "VERTEX", false, 0, fun _ _ => false, []⟩).state.last_update) ∧
    ("B" ∉ (heartbeat (heartbeat (initState false false "VERTEX" 0)
        ⟨true, ["A", "B"], "VERTEX", false, 0, fun _ _ => false, []⟩).state
        ⟨true, ["A"], "VERTEX", false, 1, fun _ _ => false, []⟩).state.mesh_data ∧
     dlookup (heartbeat (heartbeat (initState false false "VERTEX" 0)
        ⟨true, ["A", "B"], "VERTEX", false, 0, fun _ _ => false, []⟩).state
        ⟨true, ["A"], "VERTEX", false, 1, fun _ _ => false, []⟩).state.last_update
       "B" = none) ∧
    ("A" ∈ (heartbeat (heartbeat (initState false false "VERTEX" 0)
        ⟨true, ["A", "B"], "VERTEX", false, 0, fun _ _ => false, []⟩).state
        ⟨true, ["A"], "VERTEX", false, 1, fun _ _ => false, []⟩).state.mesh_data ∧
     "A" ∈ dkeys (heartbeat (heartbeat (initState false false "VERTEX" 0)
        ⟨true, ["A", "B"], "VERTEX", false, 0, fun _ _ => false, []⟩).state
        ⟨true, ["A"], "VERTEX", false, 1, fun _ _ => false, []⟩).state.last_update) :=
  deselected_object_cleaned_up (initState false false "VERTEX" 0)
    ⟨true, ["A", "B"], "VERTEX", false, 0, fun _ _ => false, []⟩
    ⟨true, ["A"], "VERTEX", false, 1, fun _ _ => false, []⟩
    "A" "B" (by decide) (by decide) (by decide) (by decide) (by decide)
    (by decide) (by decide)

end UVHighlight
